import Mathlib

/-!
Shallow embedding of the yapgeir graphics HAL GLES2 backend state cache,
batched 2D renderer, texture upload checks, sprite texture-region mapping
and sprite animation stepping, together with proofs about the claims of
the specification.

Conventions of the embedding:
* Rust `f32` values that are only ever compared with `PartialEq` (the state
  mirror in `context.rs`) are modelled by `F32 := Option ℚ`, where `none`
  models a NaN: `F32.peq` mirrors IEEE/Rust partial equality, under which
  NaN is not equal to itself.  Geometry code (`yapgeir_geometry`,
  `sprite_renderer.rs`) performs arithmetic on finite values and is
  modelled over `ℚ`.
* GPU handles (`glow::Texture`, `glow::Buffer`, ...) are modelled as `ℕ`.
* Every underlying driver call is recorded in a `List GlCall` trace; a
  state-changing operation returns the new state mirror and its trace.
* Rust panics are modelled by `Option`/`Except` results (`none` = panic).
-/

/-- Model of a Rust `f32` used by the state mirror. `none` models NaN. -/
abbrev F32 : Type := Option ℚ

/-- Rust `PartialEq` on `f32`: NaN (modelled by `none`) is unequal to everything,
including itself. -/
def F32.peq (a b : F32) : Bool :=
  match a, b with
  | some x, some y => x == y
  | _, _ => false

/-- NaN value of `F32`. -/
def F32.nan : F32 := none

/-- Finite `f32` literal. -/
def F32.lit (q : ℚ) : F32 := some q

/-- Partial equality on pairs of `F32` (Rust tuple `(f32, f32)` PartialEq). -/
def F32.peqPair (a b : F32 × F32) : Bool :=
  F32.peq a.1 b.1 && F32.peq a.2 b.2

/-- The `Rgba` color/mask structure of `yapgeir_geometry`. -/
structure Rgba (α : Type) where
  r : α
  g : α
  b : α
  a : α
deriving DecidableEq, Repr

/-- `Rgba::all` from `yapgeir_geometry`. -/
def Rgba.all {α : Type} (value : α) : Rgba α := ⟨value, value, value, value⟩

/-- Field-wise partial equality on `Rgba` (the derived Rust `PartialEq`). -/
def Rgba.peq {α : Type} (peq : α → α → Bool) (x y : Rgba α) : Bool :=
  peq x.r y.r && peq x.g y.g && peq x.b y.b && peq x.a y.a

/-- The `Rect` structure of `yapgeir_geometry`: origin plus size. -/
structure Rect (α : Type) where
  x : α
  y : α
  w : α
  h : α
deriving DecidableEq, Repr

/-- The `Size` structure of `yapgeir_geometry` (also used as `ImageSize`). -/
structure Size (α : Type) where
  w : α
  h : α
deriving DecidableEq, Repr

/-- The `Box2D` structure of `yapgeir_geometry`: two diagonal corner points. -/
structure Box2D (α : Type) where
  a : α × α
  b : α × α
deriving DecidableEq, Repr

/-- `Rect::points` from `yapgeir_geometry/src/lib.rs`: the four corners,
in the order bottom-left (origin), origin + h, origin + w + h, origin + w. -/
def Rect.points {α : Type} [Add α] (r : Rect α) : List (α × α) :=
  [(r.x, r.y), (r.x, r.y + r.h), (r.x + r.w, r.y + r.h), (r.x + r.w, r.y)]

/-- `Box2D::points` from `yapgeir_geometry/src/lib.rs`. -/
def Box2D.points {α : Type} (box2d : Box2D α) : List (α × α) :=
  [(box2d.a.1, box2d.a.2), (box2d.a.1, box2d.b.2),
   (box2d.b.1, box2d.b.2), (box2d.b.1, box2d.a.2)]

/-- `Rect::size` from `yapgeir_geometry/src/lib.rs`. -/
def Rect.size {α : Type} (r : Rect α) : Size α := ⟨r.w, r.h⟩

/-! ## Draw parameter types (`yapgeir_graphics_hal/src/draw_params.rs`) -/

/-- `BlendingEquation` from `draw_params.rs`. -/
inductive BlendingEquation where
  | Add
  | Subtract
  | ReverseSubtract
deriving DecidableEq, Repr

/-- `BlendingFactor` from `draw_params.rs`. -/
inductive BlendingFactor where
  | Zero
  | One
  | SourceColor
  | OneMinusSourceColor
  | DestinationColor
  | OneMinusDestinationColor
  | SourceAlpha
  | OneMinusSourceAlpha
  | DestinationAlpha
  | OneMinusDestinationAlpha
  | ConstantColor
  | OneMinusConstantColor
  | ConstantAlpha
  | OneMinusConstantAlpha
  | SourceAlphaSaturate
deriving DecidableEq, Repr

/-- `BlendingFunction` from `draw_params.rs`. -/
structure BlendingFunction where
  source : BlendingFactor
  destination : BlendingFactor
deriving DecidableEq, Repr

/-- `SeparateBlending` from `draw_params.rs`. -/
structure SeparateBlending (α : Type) where
  rgb : α
  alpha : α
deriving DecidableEq, Repr

/-- `Blend` from `draw_params.rs`; `color` carries `f32` components. -/
structure Blend where
  equation : SeparateBlending BlendingEquation
  function : SeparateBlending BlendingFunction
  color : Rgba F32
deriving DecidableEq, Repr

/-- The derived Rust `PartialEq` for `Blend` (floats compared partially). -/
def Blend.peq (x y : Blend) : Bool :=
  x.equation == y.equation && x.function == y.function
    && Rgba.peq F32.peq x.color y.color

/-- `CullFaceMode` from `draw_params.rs`. -/
inductive CullFaceMode where
  | Front
  | Back
  | All
deriving DecidableEq, Repr

/-- `PolygonOffset` from `draw_params.rs`; both fields are `f32`. -/
structure PolygonOffset where
  factor : F32
  units : F32
deriving DecidableEq, Repr

/-- The derived Rust `PartialEq` for `PolygonOffset`. -/
def PolygonOffset.peq (x y : PolygonOffset) : Bool :=
  F32.peq x.factor y.factor && F32.peq x.units y.units

/-- `DepthStencilTest` from `draw_params.rs`. -/
inductive DepthStencilTest where
  | Always
  | Never
  | Less
  | Equal
  | NotEqual
  | LessOrEqual
  | Greater
  | GreaterOrEqual
deriving DecidableEq, Repr

/-- `Depth` from `draw_params.rs`; `range` is a pair of `f32`. -/
structure Depth where
  test : DepthStencilTest
  write : Bool
  range : F32 × F32
deriving DecidableEq, Repr

/-- The derived Rust `PartialEq` for `Depth`. -/
def Depth.peq (x y : Depth) : Bool :=
  x.test == y.test && x.write == y.write && F32.peqPair x.range y.range

/-- `StencilFunction` from `draw_params.rs` (`reference_value` and `mask` are `u8`). -/
structure StencilFunction where
  test : DepthStencilTest
  reference_value : ℕ
  mask : ℕ
deriving DecidableEq, Repr

/-- `StencilActionMode` from `draw_params.rs`. -/
inductive StencilActionMode where
  | Keep
  | Zero
  | Replace
  | Increment
  | IncrementWrap
  | Decrement
  | DecrementWrap
  | Invert
deriving DecidableEq, Repr

/-- `StencilAction` from `draw_params.rs`. -/
structure StencilAction where
  stencil_fail : StencilActionMode
  depth_fail : StencilActionMode
  pass : StencilActionMode
deriving DecidableEq, Repr

/-- `StencilCheck` from `draw_params.rs` (`action_mask` is `u8`). -/
structure StencilCheck where
  function : StencilFunction
  action : StencilAction
  action_mask : ℕ
deriving DecidableEq, Repr

/-- `Stencil` from `draw_params.rs`: independent front and back checks. -/
structure Stencil where
  front : StencilCheck
  back : StencilCheck
deriving DecidableEq, Repr

/-! ## Sampler and buffer types (`yapgeir_graphics_hal`) -/

/-- `Filter` from `sampler.rs` (named `TexFilter` here because `Filter` is
taken by Mathlib). -/
inductive TexFilter where
  | Linear
  | Nearest
deriving DecidableEq, Repr

/-- `MinFilter` from `sampler.rs`. -/
inductive MinFilter where
  | Origin (filter : TexFilter)
  | Mipmap (mipmap : TexFilter) (texel : TexFilter)
deriving DecidableEq, Repr

/-- `WrapFunction` from `sampler.rs`. -/
inductive WrapFunction where
  | Clamp
  | Repeat
  | MirrorClamp
  | MirrorRepeat
deriving DecidableEq, Repr

/-- `SamplerState` from `sampler.rs`. -/
structure SamplerState where
  wrap : WrapFunction
  min_filter : MinFilter
  mag_filter : TexFilter
deriving DecidableEq, Repr

/-- The Rust `Default` of `SamplerState` (wrap `Repeat`, trilinear-ish min filter). -/
def SamplerState.initial : SamplerState :=
  ⟨.Repeat, .Mipmap .Linear .Nearest, .Linear⟩

/-- `BufferKind` from `buffer.rs`. -/
inductive BufferKind where
  | Index
  | Vertex
deriving DecidableEq, Repr

/-! ## The driver call trace -/

/-- GL capability constants passed to `glEnable`/`glDisable` by the state cache. -/
inductive GlParameter where
  | BLEND
  | CULL_FACE
  | DEPTH_TEST
  | STENCIL_TEST
  | SCISSOR_TEST
  | POLYGON_OFFSET_FILL
  | DITHER
deriving DecidableEq, Repr

/-- Stencil face selector (`glow::FRONT`/`glow::BACK`). -/
inductive StencilFace where
  | FRONT
  | BACK
deriving DecidableEq, Repr

/-- Texture/sampler parameter names used by the sampler fallback path. -/
inductive SamplerParam where
  | TEXTURE_WRAP_S
  | TEXTURE_WRAP_T
  | TEXTURE_MIN_FILTER
  | TEXTURE_MAG_FILTER
deriving DecidableEq, Repr

/-- One underlying driver (GL) call, with its arguments, as issued by the
state-caching context wrapper.  The mirror of `glow` calls made in
`context.rs`, `samplers.rs` and `frame_buffer.rs`. -/
inductive GlCall where
  | enable (parameter : GlParameter)
  | disable (parameter : GlParameter)
  | polygonOffset (factor units : F32)
  | cullFace (mode : CullFaceMode)
  | scissor (x y w h : ℤ)
  | blendColor (r g b a : F32)
  | blendEquationSeparate (rgb alpha : BlendingEquation)
  | blendFuncSeparate (srcRgb dstRgb srcAlpha dstAlpha : BlendingFactor)
  | depthFunc (test : DepthStencilTest)
  | depthMask (write : Bool)
  | depthRange (near far : F32)
  | stencilOpSeparate (face : StencilFace)
      (sfail : StencilActionMode) (dpfail : StencilActionMode) (pass : StencilActionMode)
  | stencilFuncSeparate (face : StencilFace)
      (test : DepthStencilTest) (reference : ℤ) (mask : ℕ)
  | stencilMaskSeparate (face : StencilFace) (mask : ℕ)
  | colorMask (r g b a : Bool)
  | lineWidth (width : F32)
  | viewport (x y w h : ℤ)
  | clearColor (r g b a : F32)
  | clearDepth (depth : F32)
  | clearStencil (stencil : ℤ)
  | clear (mask : ℕ)
  | useProgram (program : Option ℕ)
  | activeTexture (unit : ℕ)
  | bindTexture (texture : Option ℕ)
  | bindRenderbuffer (renderbuffer : Option ℕ)
  | bindFramebuffer (framebuffer : Option ℕ)
  | bindBuffer (kind : BufferKind) (buffer : Option ℕ)
  | bindVertexArray (vertexArray : Option ℕ)
  | createSampler (sampler : ℕ)
  | samplerParameter (sampler : ℕ) (param : SamplerParam)
  | bindSampler (unit : ℕ) (sampler : ℕ)
  | texParameter (param : SamplerParam)
  | uniform1i (location : ℕ) (value : ℤ)
  | uniformData (location : ℕ) (data : List ℕ)
deriving DecidableEq, Repr

/-- The `glow::COLOR_BUFFER_BIT` constant. -/
def COLOR_BUFFER_BIT : ℕ := 0x00004000

/-- The `glow::DEPTH_BUFFER_BIT` constant. -/
def DEPTH_BUFFER_BIT : ℕ := 0x00000100

/-- The `glow::STENCIL_BUFFER_BIT` constant. -/
def STENCIL_BUFFER_BIT : ℕ := 0x00000400

/-! ## The state mirror (`yapgeir_graphics_hal_gles2/src/context.rs`) -/

/-- `MAX_TEXTURES` from `context.rs`. -/
def MAX_TEXTURES : ℕ := 32

/-- `Feature` from `context.rs`: an enable flag plus the mirrored value. -/
structure Feature (T : Type) where
  enabled : Bool
  value : T
deriving DecidableEq, Repr

/-- `TextureUnit` from `context.rs`: per-unit bound texture and sampler mirror. -/
structure TextureUnit where
  texture : Option ℕ
  sampler : SamplerState
deriving DecidableEq, Repr

/-- The Rust `Default` of a texture unit. -/
def TextureUnit.initial : TextureUnit := ⟨none, SamplerState.initial⟩

/-- `Samplers` from `samplers.rs`: the sampler-object cache (keyed by sampler
state) and the fallback cache of the last sampling parameters applied
directly to a texture.  Both maps are modelled by association lists. -/
structure Samplers where
  real_cache : List (SamplerState × ℕ)
  fallback_cache : List (ℕ × SamplerState)
deriving DecidableEq, Repr

/-- The mirrored `EnumMap<BufferKind, Option<glow::Buffer>>` of bound buffers. -/
structure BoundBuffers where
  index : Option ℕ
  vertex : Option ℕ
deriving DecidableEq, Repr

/-- Read the bound buffer of a kind. -/
def BoundBuffers.get (m : BoundBuffers) : BufferKind → Option ℕ
  | .Index => m.index
  | .Vertex => m.vertex

/-- Store the bound buffer of a kind. -/
def BoundBuffers.put (m : BoundBuffers) (kind : BufferKind) (buffer : Option ℕ) : BoundBuffers :=
  match kind with
  | .Index => { m with index := buffer }
  | .Vertex => { m with vertex := buffer }

/-- `EnumMap::clear`: every kind maps back to the default (`None`). -/
def BoundBuffers.clearAll : BoundBuffers := ⟨none, none⟩

/-- `GlesState` from `context.rs`: the CPU-side mirror of the driver state.
`fresh_sampler` is a modelling device that stands in for the driver's
generation of fresh `glow::Sampler` handles in `create_sampler`. -/
structure GlesState where
  clear_color : Rgba F32
  clear_depth : F32
  clear_stencil : ℕ
  blend : Feature Blend
  cull_face : Feature CullFaceMode
  depth : Feature Depth
  stencil : Feature Stencil
  scissor : Feature (Rect ℕ)
  polygon_offset : Feature PolygonOffset
  color_mask : Rgba Bool
  line_width : F32
  dithering : Bool
  viewport : Rect ℕ
  active_texture_unit : ℕ
  texture_unit_limit : ℕ
  texture_units : List TextureUnit
  bound_program : Option ℕ
  bound_buffers : BoundBuffers
  bound_frame_buffer : Option ℕ
  bound_render_buffer : Option ℕ
  bound_vertex_array : Option ℕ
  samplers : Samplers
  fresh_sampler : ℕ

/-- `Extensions` from `context.rs`: the capability probe results. -/
structure Extensions where
  vertex_array_objects : Bool
  sampler_objects : Bool
  blit_framebuffer : Bool
deriving DecidableEq, Repr

/-- The `SmartDefault` initial mirror of `GlesState` (texture unit limit is a
parameter fixed at context creation). -/
def GlesState.initial (texture_unit_limit : ℕ) : GlesState where
  clear_color := Rgba.all (F32.lit 0)
  clear_depth := F32.lit 0
  clear_stencil := 0
  blend := ⟨false, ⟨⟨.Add, .Add⟩, ⟨⟨.One, .Zero⟩, ⟨.One, .Zero⟩⟩, Rgba.all (F32.lit 0)⟩⟩
  cull_face := ⟨false, .Front⟩
  depth := ⟨false, ⟨.Always, false, (F32.lit 0, F32.lit 1)⟩⟩
  stencil := ⟨false, ⟨⟨⟨.Always, 0, 0xff⟩, ⟨.Keep, .Keep, .Keep⟩, 0xff⟩,
                     ⟨⟨.Always, 0, 0xff⟩, ⟨.Keep, .Keep, .Keep⟩, 0xff⟩⟩⟩
  scissor := ⟨false, ⟨0, 0, 0, 0⟩⟩
  polygon_offset := ⟨false, ⟨F32.lit 0, F32.lit 0⟩⟩
  color_mask := Rgba.all true
  line_width := F32.lit 1
  dithering := false
  viewport := ⟨0, 0, 0, 0⟩
  active_texture_unit := 0
  texture_unit_limit := texture_unit_limit
  texture_units := List.replicate MAX_TEXTURES TextureUnit.initial
  bound_program := none
  bound_buffers := BoundBuffers.clearAll
  bound_frame_buffer := none
  bound_render_buffer := none
  bound_vertex_array := none
  samplers := ⟨[], []⟩
  fresh_sampler := 0

/-- `set_parameter` from `context.rs`: one `glEnable`/`glDisable` call. -/
def set_parameter (parameter : GlParameter) (value : Bool) : GlCall :=
  if value then GlCall.enable parameter else GlCall.disable parameter

/-- `Feature::update` from `context.rs`: toggle the capability when the
enabled flag changed, then issue the value-diffing calls only when the
new value differs from the mirror (under the type's `PartialEq`, given
here as `peq`), and write the new value into the mirror. -/
def Feature.update {T : Type} (self : Feature T) (parameter : GlParameter)
    (value : Option T) (peq : T → T → Bool)
    (updateCalls : T → T → List GlCall) : Feature T × List GlCall :=
  let (self, calls) :=
    if value.isSome != self.enabled then
      ({ self with enabled := value.isSome }, [set_parameter parameter value.isSome])
    else
      (self, [])
  match value with
  | some new_value =>
    if peq new_value self.value = false then
      ({ self with value := new_value }, calls ++ updateCalls self.value new_value)
    else
      (self, calls)
  | none => (self, calls)

/-- `GlesContextRef::set_polygon_offset` from `context.rs`. -/
def set_polygon_offset (s : GlesState) (polygon_offset : Option PolygonOffset) :
    GlesState × List GlCall :=
  let r := Feature.update s.polygon_offset .POLYGON_OFFSET_FILL polygon_offset
    PolygonOffset.peq
    (fun _ new => [GlCall.polygonOffset new.factor new.units])
  ({ s with polygon_offset := r.1 }, r.2)

/-- `GlesContextRef::set_cull_face` from `context.rs`. -/
def set_cull_face (s : GlesState) (cull_face : Option CullFaceMode) :
    GlesState × List GlCall :=
  let r := Feature.update s.cull_face .CULL_FACE cull_face
    (fun a b => a == b)
    (fun _ new => [GlCall.cullFace new])
  ({ s with cull_face := r.1 }, r.2)

/-- `GlesContextRef::set_scissor` from `context.rs` (the `Rect<u32>` is cast
to `Rect<i32>` for the call). -/
def set_scissor (s : GlesState) (scissor : Option (Rect ℕ)) :
    GlesState × List GlCall :=
  let r := Feature.update s.scissor .SCISSOR_TEST scissor
    (fun a b => a == b)
    (fun _ new => [GlCall.scissor (Int.ofNat new.x) (Int.ofNat new.y)
      (Int.ofNat new.w) (Int.ofNat new.h)])
  ({ s with scissor := r.1 }, r.2)

/-- `GlesContextRef::set_blend` from `context.rs`: the compound sub-fields
(color, equation, function) are diffed independently. -/
def set_blend (s : GlesState) (blend : Option Blend) : GlesState × List GlCall :=
  let r := Feature.update s.blend .BLEND blend Blend.peq
    (fun old new =>
      (if Rgba.peq F32.peq old.color new.color = false then
        [GlCall.blendColor new.color.r new.color.g new.color.b new.color.a]
      else [])
      ++ (if old.equation != new.equation then
        [GlCall.blendEquationSeparate new.equation.rgb new.equation.alpha]
      else [])
      ++ (if old.function != new.function then
        [GlCall.blendFuncSeparate new.function.rgb.source new.function.rgb.destination
          new.function.alpha.source new.function.alpha.destination]
      else []))
  ({ s with blend := r.1 }, r.2)

/-- `GlesContextRef::set_depth` from `context.rs`. -/
def set_depth (s : GlesState) (depth : Option Depth) : GlesState × List GlCall :=
  let r := Feature.update s.depth .DEPTH_TEST depth Depth.peq
    (fun old new =>
      (if old.test != new.test then [GlCall.depthFunc new.test] else [])
      ++ (if old.write != new.write then [GlCall.depthMask new.write] else [])
      ++ (if F32.peqPair old.range new.range = false then
        [GlCall.depthRange new.range.1 new.range.2]
      else []))
  ({ s with depth := r.1 }, r.2)

/-- The per-face inner `update` function of `GlesContextRef::set_stencil`. -/
def stencil_face_update (face : StencilFace) (old new : StencilCheck) : List GlCall :=
  (if old.action != new.action then
    [GlCall.stencilOpSeparate face new.action.stencil_fail new.action.depth_fail
      new.action.pass]
  else [])
  ++ (if old.function != new.function then
    [GlCall.stencilFuncSeparate face new.function.test
      (Int.ofNat new.function.reference_value) new.function.mask]
  else [])
  ++ (if old.action_mask != new.action_mask then
    [GlCall.stencilMaskSeparate face new.action_mask]
  else [])

/-- `GlesContextRef::set_stencil` from `context.rs`: back face first, then front. -/
def set_stencil (s : GlesState) (stencil : Option Stencil) : GlesState × List GlCall :=
  let r := Feature.update s.stencil .STENCIL_TEST stencil
    (fun a b => a == b)
    (fun old new =>
      stencil_face_update .BACK old.back new.back
      ++ stencil_face_update .FRONT old.front new.front)
  ({ s with stencil := r.1 }, r.2)

/-- `GlesContextRef::set_dithering` from `context.rs`. -/
def set_dithering (s : GlesState) (dithering : Bool) : GlesState × List GlCall :=
  if s.dithering != dithering then
    ({ s with dithering := dithering }, [set_parameter .DITHER dithering])
  else
    (s, [])

/-- `GlesContextRef::set_color_mask` from `context.rs`. -/
def set_color_mask (s : GlesState) (mask : Rgba Bool) : GlesState × List GlCall :=
  if s.color_mask != mask then
    ({ s with color_mask := mask }, [GlCall.colorMask mask.r mask.g mask.b mask.a])
  else
    (s, [])

/-- `GlesContextRef::set_line_width` from `context.rs` (an `f32` compare). -/
def set_line_width (s : GlesState) (line_width : F32) : GlesState × List GlCall :=
  if F32.peq s.line_width line_width = false then
    ({ s with line_width := line_width }, [GlCall.lineWidth line_width])
  else
    (s, [])

/-- `GlesContextRef::set_viewport` from `context.rs`. -/
def set_viewport (s : GlesState) (viewport : Rect ℕ) : GlesState × List GlCall :=
  if viewport != s.viewport then
    ({ s with viewport := viewport },
      [GlCall.viewport (Int.ofNat viewport.x) (Int.ofNat viewport.y)
        (Int.ofNat viewport.w) (Int.ofNat viewport.h)])
  else
    (s, [])

/-- `GlesContextRef::set_clear_color` from `context.rs` (an `f32` compare). -/
def set_clear_color (s : GlesState) (color : Rgba F32) : GlesState × List GlCall :=
  if Rgba.peq F32.peq s.clear_color color = false then
    ({ s with clear_color := color }, [GlCall.clearColor color.r color.g color.b color.a])
  else
    (s, [])

/-- `GlesContextRef::set_clear_depth` from `context.rs` (an `f32` compare). -/
def set_clear_depth (s : GlesState) (depth : F32) : GlesState × List GlCall :=
  if F32.peq s.clear_depth depth = false then
    ({ s with clear_depth := depth }, [GlCall.clearDepth depth])
  else
    (s, [])

/-- `GlesContextRef::set_clear_stencil` from `context.rs` (a `u8` compare). -/
def set_clear_stencil (s : GlesState) (stencil : ℕ) : GlesState × List GlCall :=
  if s.clear_stencil != stencil then
    ({ s with clear_stencil := stencil }, [GlCall.clearStencil (Int.ofNat stencil)])
  else
    (s, [])

/-- `GlesContextRef::use_program` from `context.rs`. -/
def use_program (s : GlesState) (program : Option ℕ) : GlesState × List GlCall :=
  if s.bound_program != program then
    ({ s with bound_program := program }, [GlCall.useProgram program])
  else
    (s, [])

/-- `GlesContextRef::activate_texture_unit` from `context.rs`. -/
def activate_texture_unit (s : GlesState) (unit : ℕ) : GlesState × List GlCall :=
  if s.active_texture_unit != unit then
    ({ s with active_texture_unit := unit }, [GlCall.activeTexture unit])
  else
    (s, [])

/-- `GlesContextRef::bind_texture` from `context.rs`: bind a texture to an
explicit unit, eliding the call when the mirror already has it there. -/
def bind_texture (s : GlesState) (unit : ℕ) (texture : Option ℕ) :
    GlesState × List GlCall :=
  if (s.texture_units.getD unit TextureUnit.initial).texture != texture then
    let r := activate_texture_unit s unit
    let s := r.1
    let u := s.texture_units.getD unit TextureUnit.initial
    ({ s with texture_units := s.texture_units.set unit { u with texture := texture } },
      r.2 ++ [GlCall.bindTexture texture])
  else
    (s, [])

/-- `GlesContextRef::bind_render_buffer` from `context.rs`. -/
def bind_render_buffer (s : GlesState) (renderbuffer : Option ℕ) :
    GlesState × List GlCall :=
  if s.bound_render_buffer != renderbuffer then
    ({ s with bound_render_buffer := renderbuffer },
      [GlCall.bindRenderbuffer renderbuffer])
  else
    (s, [])

/-- `GlesContextRef::bind_frame_buffer` from `context.rs`. -/
def bind_frame_buffer (s : GlesState) (framebuffer : Option ℕ) :
    GlesState × List GlCall :=
  if s.bound_frame_buffer != framebuffer then
    ({ s with bound_frame_buffer := framebuffer },
      [GlCall.bindFramebuffer framebuffer])
  else
    (s, [])

/-- `GlesContextRef::bind_buffer` from `context.rs`. -/
def bind_buffer (s : GlesState) (kind : BufferKind) (buffer : Option ℕ) :
    GlesState × List GlCall :=
  if s.bound_buffers.get kind != buffer then
    ({ s with bound_buffers := s.bound_buffers.put kind buffer },
      [GlCall.bindBuffer kind buffer])
  else
    (s, [])

/-- `GlesContextRef::bind_vertex_array` from `context.rs`: forgets the bound
buffers mirror first, then binds when different. -/
def bind_vertex_array (s : GlesState) (vertex_array : Option ℕ) :
    GlesState × List GlCall :=
  let s := { s with bound_buffers := BoundBuffers.clearAll }
  if s.bound_vertex_array != vertex_array then
    ({ s with bound_vertex_array := vertex_array },
      [GlCall.bindVertexArray vertex_array])
  else
    (s, [])

/-- The `if let Some(color)` block of `GlesContextRef::clear`: set the clear
color and or `COLOR_BUFFER_BIT` into the mask. -/
def clear_color_step (s : GlesState) (mask : ℕ) (color : Option (Rgba F32)) :
    GlesState × List GlCall × ℕ :=
  match color with
  | some color =>
    let rc := set_clear_color s color
    (rc.1, rc.2, mask ||| COLOR_BUFFER_BIT)
  | none => (s, [], mask)

/-- The `if let Some(depth)` block of `GlesContextRef::clear`. -/
def clear_depth_step (s : GlesState) (mask : ℕ) (depth : Option F32) :
    GlesState × List GlCall × ℕ :=
  match depth with
  | some depth =>
    let rd := set_clear_depth s depth
    (rd.1, rd.2, mask ||| DEPTH_BUFFER_BIT)
  | none => (s, [], mask)

/-- The `if let Some(stencil)` block of `GlesContextRef::clear`. -/
def clear_stencil_step (s : GlesState) (mask : ℕ) (stencil : Option ℕ) :
    GlesState × List GlCall × ℕ :=
  match stencil with
  | some stencil =>
    let rs := set_clear_stencil s stencil
    (rs.1, rs.2, mask ||| STENCIL_BUFFER_BIT)
  | none => (s, [], mask)

/-- `GlesContextRef::clear` from `context.rs`: early-out when nothing is
requested, otherwise force the color mask to all-true, set the scissor and
the requested clear values (accumulating the buffer-bit mask from zero),
and issue one `glClear` with the collected mask. -/
def clear (s : GlesState) (scissor : Option (Rect ℕ)) (color : Option (Rgba F32))
    (depth : Option F32) (stencil : Option ℕ) : GlesState × List GlCall :=
  if color.isNone && depth.isNone && stencil.isNone then
    (s, [])
  else
    let r1 := set_color_mask s (Rgba.all true)
    let r2 := set_scissor r1.1 scissor
    let r3 := clear_color_step r2.1 0 color
    let r4 := clear_depth_step r3.1 r3.2.2 depth
    let r5 := clear_stencil_step r4.1 r4.2.2 stencil
    (r5.1, r1.2 ++ r2.2 ++ r3.2.1 ++ r4.2.1 ++ r5.2.1 ++ [GlCall.clear r5.2.2])

/-! ## Claim C1: state-cache idempotence -/

/-- Reflexivity of a partial equality at an optional value: `true` when the
value (if present) compares equal to itself, i.e. contains no NaN float. -/
def selfConsistent {T : Type} (peq : T → T → Bool) : Option T → Bool
  | some x => peq x x
  | none => true

theorem Feature.update_idem {T : Type} (f : Feature T) (p : GlParameter)
    (v : Option T) (peq : T → T → Bool) (upd : T → T → List GlCall)
    (h : selfConsistent peq v = true) :
    Feature.update (Feature.update f p v peq upd).1 p v peq upd
      = ((Feature.update f p v peq upd).1, []) := by
  obtain ⟨en, val⟩ := f
  cases v with
  | none =>
    cases en <;> simp [Feature.update, set_parameter]
  | some x =>
    have hx : peq x x = true := h
    cases en <;>
      by_cases hv : peq x val = false <;>
        simp [Feature.update, hv, hx]

/-- Helper: `List.getD` after `List.set` at the same in-bounds index. -/
theorem listGetDSetSelf {α : Type} (l : List α) (i : ℕ) (a d : α)
    (h : i < l.length) : (l.set i a).getD i d = a := by
  induction l generalizing i with
  | nil => simp at h
  | cons x xs ih =>
    cases i with
    | zero => simp [List.getD]
    | succ n => simpa [List.getD] using ih n (by simpa using h)

theorem set_blend_idem (s : GlesState) (v : Option Blend)
    (h : selfConsistent Blend.peq v = true) :
    set_blend (set_blend s v).1 v = ((set_blend s v).1, []) := by
  simp only [set_blend]
  rw [Feature.update_idem _ _ _ _ _ h]

theorem set_cull_face_idem (s : GlesState) (v : Option CullFaceMode) :
    set_cull_face (set_cull_face s v).1 v = ((set_cull_face s v).1, []) := by
  simp only [set_cull_face]
  rw [Feature.update_idem]
  cases v with
  | none => rfl
  | some x => simp [selfConsistent]

theorem set_depth_idem (s : GlesState) (v : Option Depth)
    (h : selfConsistent Depth.peq v = true) :
    set_depth (set_depth s v).1 v = ((set_depth s v).1, []) := by
  simp only [set_depth]
  rw [Feature.update_idem _ _ _ _ _ h]

theorem set_stencil_idem (s : GlesState) (v : Option Stencil) :
    set_stencil (set_stencil s v).1 v = ((set_stencil s v).1, []) := by
  simp only [set_stencil]
  rw [Feature.update_idem]
  cases v with
  | none => rfl
  | some x => simp [selfConsistent]

theorem set_scissor_idem (s : GlesState) (v : Option (Rect ℕ)) :
    set_scissor (set_scissor s v).1 v = ((set_scissor s v).1, []) := by
  simp only [set_scissor]
  rw [Feature.update_idem]
  cases v with
  | none => rfl
  | some x => simp [selfConsistent]

theorem set_polygon_offset_idem (s : GlesState) (v : Option PolygonOffset)
    (h : selfConsistent PolygonOffset.peq v = true) :
    set_polygon_offset (set_polygon_offset s v).1 v
      = ((set_polygon_offset s v).1, []) := by
  simp only [set_polygon_offset]
  rw [Feature.update_idem _ _ _ _ _ h]

theorem set_color_mask_idem (s : GlesState) (v : Rgba Bool) :
    set_color_mask (set_color_mask s v).1 v = ((set_color_mask s v).1, []) := by
  by_cases h : s.color_mask = v <;> simp [set_color_mask, h]

theorem set_line_width_idem (s : GlesState) (v : F32) (h : F32.peq v v = true) :
    set_line_width (set_line_width s v).1 v = ((set_line_width s v).1, []) := by
  by_cases hc : F32.peq s.line_width v = false <;> simp [set_line_width, hc, h]

theorem set_viewport_idem (s : GlesState) (v : Rect ℕ) :
    set_viewport (set_viewport s v).1 v = ((set_viewport s v).1, []) := by
  by_cases h : v = s.viewport <;> simp [set_viewport, h]

theorem set_dithering_idem (s : GlesState) (v : Bool) :
    set_dithering (set_dithering s v).1 v = ((set_dithering s v).1, []) := by
  by_cases h : s.dithering = v <;> simp [set_dithering, h]

theorem set_clear_color_idem (s : GlesState) (v : Rgba F32)
    (h : Rgba.peq F32.peq v v = true) :
    set_clear_color (set_clear_color s v).1 v = ((set_clear_color s v).1, []) := by
  by_cases hc : Rgba.peq F32.peq s.clear_color v = false <;>
    simp [set_clear_color, hc, h]

theorem set_clear_depth_idem (s : GlesState) (v : F32) (h : F32.peq v v = true) :
    set_clear_depth (set_clear_depth s v).1 v = ((set_clear_depth s v).1, []) := by
  by_cases hc : F32.peq s.clear_depth v = false <;> simp [set_clear_depth, hc, h]

theorem set_clear_stencil_idem (s : GlesState) (v : ℕ) :
    set_clear_stencil (set_clear_stencil s v).1 v
      = ((set_clear_stencil s v).1, []) := by
  by_cases h : s.clear_stencil = v <;> simp [set_clear_stencil, h]

theorem use_program_idem (s : GlesState) (v : Option ℕ) :
    use_program (use_program s v).1 v = ((use_program s v).1, []) := by
  by_cases h : s.bound_program = v <;> simp [use_program, h]

theorem bind_buffer_idem (s : GlesState) (kind : BufferKind) (v : Option ℕ) :
    bind_buffer (bind_buffer s kind v).1 kind v = ((bind_buffer s kind v).1, []) := by
  by_cases h : s.bound_buffers.get kind = v <;>
    cases kind <;>
      simp_all [bind_buffer, BoundBuffers.get, BoundBuffers.put]

theorem bind_frame_buffer_idem (s : GlesState) (v : Option ℕ) :
    bind_frame_buffer (bind_frame_buffer s v).1 v
      = ((bind_frame_buffer s v).1, []) := by
  by_cases h : s.bound_frame_buffer = v <;> simp [bind_frame_buffer, h]

theorem bind_render_buffer_idem (s : GlesState) (v : Option ℕ) :
    bind_render_buffer (bind_render_buffer s v).1 v
      = ((bind_render_buffer s v).1, []) := by
  by_cases h : s.bound_render_buffer = v <;> simp [bind_render_buffer, h]

theorem bind_texture_idem (s : GlesState) (unit : ℕ) (v : Option ℕ)
    (h : unit < s.texture_units.length) :
    bind_texture (bind_texture s unit v).1 unit v
      = ((bind_texture s unit v).1, []) := by
  have hlen : unit < (activate_texture_unit s unit).1.texture_units.length := by
    by_cases ha : s.active_texture_unit = unit <;>
      simp_all [activate_texture_unit]
  by_cases hc : (s.texture_units.getD unit TextureUnit.initial).texture = v <;>
    simp only [List.getD, List.get?_eq_getElem?] at hc <;>
    simp [bind_texture, List.getD, hc, List.getElem?_set_self hlen]

/-- C1, counterexample: the claim quantifies over *every* value `V`, but for a
NaN line width (Rust `f32` `PartialEq` is not reflexive at NaN) the second
`set_line_width` call with the same value issues the underlying
`glLineWidth` driver call again instead of issuing zero driver calls. -/
theorem c1_repeated_set_counterexample :
    (set_line_width (set_line_width (GlesState.initial 8) F32.nan).1 F32.nan).2
      = [GlCall.lineWidth F32.nan]
    ∧ (set_line_width (set_line_width (GlesState.initial 8) F32.nan).1 F32.nan).2
      ≠ ([] : List GlCall) := by
  exact ⟨by decide, by decide⟩

/-- C1 (amended): for every state-setting operation of the GL context wrapper
and every value `V` that compares equal to itself under the code's
`PartialEq` (i.e. contains no NaN float component; for NaN-carrying values
the driver call is re-issued on every invocation), calling the operation a
second time in a row with the same value issues zero underlying driver
calls and leaves the state mirror unchanged, so the underlying driver state
change is issued at most once in total.  For `bind_texture` the unit index
must be in bounds of the texture-unit mirror (out-of-bounds indexing
panics in the source). -/
theorem c1_state_cache_idempotence :
    (∀ (s : GlesState) (v : Option Blend), selfConsistent Blend.peq v = true →
      set_blend (set_blend s v).1 v = ((set_blend s v).1, []))
    ∧ (∀ (s : GlesState) (v : Option CullFaceMode),
      set_cull_face (set_cull_face s v).1 v = ((set_cull_face s v).1, []))
    ∧ (∀ (s : GlesState) (v : Option Depth), selfConsistent Depth.peq v = true →
      set_depth (set_depth s v).1 v = ((set_depth s v).1, []))
    ∧ (∀ (s : GlesState) (v : Option Stencil),
      set_stencil (set_stencil s v).1 v = ((set_stencil s v).1, []))
    ∧ (∀ (s : GlesState) (v : Option (Rect ℕ)),
      set_scissor (set_scissor s v).1 v = ((set_scissor s v).1, []))
    ∧ (∀ (s : GlesState) (v : Option PolygonOffset),
      selfConsistent PolygonOffset.peq v = true →
      set_polygon_offset (set_polygon_offset s v).1 v
        = ((set_polygon_offset s v).1, []))
    ∧ (∀ (s : GlesState) (v : Rgba Bool),
      set_color_mask (set_color_mask s v).1 v = ((set_color_mask s v).1, []))
    ∧ (∀ (s : GlesState) (v : F32), F32.peq v v = true →
      set_line_width (set_line_width s v).1 v = ((set_line_width s v).1, []))
    ∧ (∀ (s : GlesState) (v : Rect ℕ),
      set_viewport (set_viewport s v).1 v = ((set_viewport s v).1, []))
    ∧ (∀ (s : GlesState) (v : Bool),
      set_dithering (set_dithering s v).1 v = ((set_dithering s v).1, []))
    ∧ (∀ (s : GlesState) (v : Rgba F32), Rgba.peq F32.peq v v = true →
      set_clear_color (set_clear_color s v).1 v = ((set_clear_color s v).1, []))
    ∧ (∀ (s : GlesState) (v : F32), F32.peq v v = true →
      set_clear_depth (set_clear_depth s v).1 v = ((set_clear_depth s v).1, []))
    ∧ (∀ (s : GlesState) (v : ℕ),
      set_clear_stencil (set_clear_stencil s v).1 v
        = ((set_clear_stencil s v).1, []))
    ∧ (∀ (s : GlesState) (v : Option ℕ),
      use_program (use_program s v).1 v = ((use_program s v).1, []))
    ∧ (∀ (s : GlesState) (kind : BufferKind) (v : Option ℕ),
      bind_buffer (bind_buffer s kind v).1 kind v = ((bind_buffer s kind v).1, []))
    ∧ (∀ (s : GlesState) (v : Option ℕ),
      bind_frame_buffer (bind_frame_buffer s v).1 v
        = ((bind_frame_buffer s v).1, []))
    ∧ (∀ (s : GlesState) (v : Option ℕ),
      bind_render_buffer (bind_render_buffer s v).1 v
        = ((bind_render_buffer s v).1, []))
    ∧ (∀ (s : GlesState) (unit : ℕ) (v : Option ℕ),
      unit < s.texture_units.length →
      bind_texture (bind_texture s unit v).1 unit v
        = ((bind_texture s unit v).1, [])) :=
  ⟨set_blend_idem, set_cull_face_idem, set_depth_idem, set_stencil_idem,
   set_scissor_idem, set_polygon_offset_idem, set_color_mask_idem,
   set_line_width_idem, set_viewport_idem, set_dithering_idem,
   set_clear_color_idem, set_clear_depth_idem, set_clear_stencil_idem,
   use_program_idem, bind_buffer_idem, bind_frame_buffer_idem,
   bind_render_buffer_idem, bind_texture_idem⟩

/-- C1 witness: the idempotence theorem applied at a concrete alpha-blend
value and at a concrete in-bounds texture binding. -/
theorem c1_state_cache_idempotence_witness :
    (set_blend (set_blend (GlesState.initial 8)
        (some ⟨⟨.Add, .Add⟩, ⟨⟨.One, .OneMinusSourceAlpha⟩,
          ⟨.OneMinusDestinationAlpha, .One⟩⟩, Rgba.all (F32.lit 0)⟩)).1
        (some ⟨⟨.Add, .Add⟩, ⟨⟨.One, .OneMinusSourceAlpha⟩,
          ⟨.OneMinusDestinationAlpha, .One⟩⟩, Rgba.all (F32.lit 0)⟩)
      = ((set_blend (GlesState.initial 8)
        (some ⟨⟨.Add, .Add⟩, ⟨⟨.One, .OneMinusSourceAlpha⟩,
          ⟨.OneMinusDestinationAlpha, .One⟩⟩, Rgba.all (F32.lit 0)⟩)).1, []))
    ∧ (bind_texture (bind_texture (GlesState.initial 8) 3 (some 7)).1 3 (some 7)
      = ((bind_texture (GlesState.initial 8) 3 (some 7)).1, [])) :=
  ⟨c1_state_cache_idempotence.1 _ _ (by decide),
   c1_state_cache_idempotence.2.2.2.2.2.2.2.2.2.2.2.2.2.2.2.2.2 _ _ _ (by decide)⟩

/-! ## Claim C9: clear forces the color mask and early-outs on no-op -/

theorem set_color_mask_sets (s : GlesState) (v : Rgba Bool) :
    (set_color_mask s v).1.color_mask = v := by
  by_cases h : s.color_mask = v <;> simp [set_color_mask, h]

theorem set_scissor_color_mask (s : GlesState) (v : Option (Rect ℕ)) :
    (set_scissor s v).1.color_mask = s.color_mask := rfl

theorem set_clear_color_color_mask (s : GlesState) (v : Rgba F32) :
    (set_clear_color s v).1.color_mask = s.color_mask := by
  by_cases h : Rgba.peq F32.peq s.clear_color v = false <;> simp [set_clear_color, h]

theorem set_clear_depth_color_mask (s : GlesState) (v : F32) :
    (set_clear_depth s v).1.color_mask = s.color_mask := by
  by_cases h : F32.peq s.clear_depth v = false <;> simp [set_clear_depth, h]

theorem set_clear_stencil_color_mask (s : GlesState) (v : ℕ) :
    (set_clear_stencil s v).1.color_mask = s.color_mask := by
  by_cases h : s.clear_stencil = v <;> simp [set_clear_stencil, h]

theorem clear_color_step_color_mask (s : GlesState) (m : ℕ) (v : Option (Rgba F32)) :
    (clear_color_step s m v).1.color_mask = s.color_mask := by
  cases v <;> simp [clear_color_step, set_clear_color_color_mask]

theorem clear_depth_step_color_mask (s : GlesState) (m : ℕ) (v : Option F32) :
    (clear_depth_step s m v).1.color_mask = s.color_mask := by
  cases v <;> simp [clear_depth_step, set_clear_depth_color_mask]

theorem clear_stencil_step_color_mask (s : GlesState) (m : ℕ) (v : Option ℕ) :
    (clear_stencil_step s m v).1.color_mask = s.color_mask := by
  cases v <;> simp [clear_stencil_step, set_clear_stencil_color_mask]

theorem clear_color_step_mask (s : GlesState) (m : ℕ) (v : Option (Rgba F32)) :
    (clear_color_step s m v).2.2 = if v.isSome then m ||| COLOR_BUFFER_BIT else m := by
  cases v <;> simp [clear_color_step]

theorem clear_depth_step_mask (s : GlesState) (m : ℕ) (v : Option F32) :
    (clear_depth_step s m v).2.2 = if v.isSome then m ||| DEPTH_BUFFER_BIT else m := by
  cases v <;> simp [clear_depth_step]

theorem clear_stencil_step_mask (s : GlesState) (m : ℕ) (v : Option ℕ) :
    (clear_stencil_step s m v).2.2
      = if v.isSome then m ||| STENCIL_BUFFER_BIT else m := by
  cases v <;> simp [clear_stencil_step]

/-- C9: a `clear` with nothing requested returns immediately with no driver
call and an unchanged mirror; a `clear` requesting at least one of color,
depth or stencil leaves the color-mask mirror forced to all-true and its
driver-call trace is some prefix (mask/scissor/clear-value calls) followed
by exactly one final `glClear` whose bitmask collects exactly the
requested buffers. -/
theorem c9_clear_color_mask_and_noop :
    (∀ (s : GlesState) (scissor : Option (Rect ℕ)),
      clear s scissor none none none = (s, []))
    ∧ (∀ (s : GlesState) (scissor : Option (Rect ℕ)) (color : Option (Rgba F32))
        (depth : Option F32) (stencil : Option ℕ),
      color.isSome ∨ depth.isSome ∨ stencil.isSome →
      (clear s scissor color depth stencil).1.color_mask = Rgba.all true
      ∧ (clear s scissor color depth stencil).2.getLast?
          = some (GlCall.clear
              ((if color.isSome then COLOR_BUFFER_BIT else 0)
                ||| (if depth.isSome then DEPTH_BUFFER_BIT else 0)
                ||| (if stencil.isSome then STENCIL_BUFFER_BIT else 0)))) := by
  constructor
  · intro s scissor
    simp [clear]
  · intro s scissor color depth stencil h
    have hcond : (color.isNone && depth.isNone && stencil.isNone) = false := by
      rcases h with h | h | h <;> cases color <;> cases depth <;> cases stencil <;>
        simp_all
    refine ⟨?_, ?_⟩
    · simp only [clear, hcond, Bool.false_eq_true, if_false]
      rw [clear_stencil_step_color_mask, clear_depth_step_color_mask,
        clear_color_step_color_mask, set_scissor_color_mask, set_color_mask_sets]
    · simp only [clear, hcond, Bool.false_eq_true, if_false]
      rw [List.getLast?_append, List.getLast?_append, List.getLast?_append,
        List.getLast?_append, List.getLast?_append]
      rw [clear_stencil_step_mask, clear_depth_step_mask, clear_color_step_mask]
      cases color <;> cases depth <;> cases stencil <;> simp_all

/-- C9 witness: the clear theorem applied at a concrete state, both for the
all-`none` no-op and for a color+depth clear. -/
theorem c9_clear_color_mask_and_noop_witness :
    clear (GlesState.initial 8) (some ⟨1, 2, 3, 4⟩) none none none
      = (GlesState.initial 8, [])
    ∧ (clear (GlesState.initial 8) none (some (Rgba.all (F32.lit 1)))
        (some (F32.lit 1)) none).1.color_mask = Rgba.all true :=
  ⟨c9_clear_color_mask_and_noop.1 _ _,
   (c9_clear_color_mask_and_noop.2 (GlesState.initial 8) none
      (some (Rgba.all (F32.lit 1))) (some (F32.lit 1)) none (Or.inl rfl)).1⟩

/-! ## Claim C5: quad index precomputation
(`yapgeir_renderer_2d/src/quad_index_buffer.rs`) -/

/-- The `usize -> I` `try_into` conversion of an index type whose largest
representable value is `maxIndex` (255, 65535 or 4294967295 for the 8-, 16-
and 32-bit index widths); overflow is the `TryFromIntError` case. -/
def index_try_into (maxIndex j : ℕ) : Except Unit ℕ :=
  if j ≤ maxIndex then .ok j else .error ()

/-- The `while quad < quads` loop of `create_quad_indices`, pushing the six
indices `j, j+1, j+2, j, j+2, j+3` with `j = quad * 4` for each quad;
structural recursion on the number of remaining quads. -/
def create_quad_indices_loop (maxIndex : ℕ) : (remaining quad : ℕ) → Except Unit (List ℕ)
  | 0, _ => .ok []
  | remaining + 1, quad => do
    let j := quad * 4
    let i0 ← index_try_into maxIndex j
    let i1 ← index_try_into maxIndex (j + 1)
    let i2 ← index_try_into maxIndex (j + 2)
    let i3 ← index_try_into maxIndex j
    let i4 ← index_try_into maxIndex (j + 2)
    let i5 ← index_try_into maxIndex (j + 3)
    let rest ← create_quad_indices_loop maxIndex remaining (quad + 1)
    .ok ([i0, i1, i2, i3, i4, i5] ++ rest)

/-- `create_quad_indices` from `quad_index_buffer.rs`: parameterized by the
index count; emits `indices / 6` groups of six quad indices. -/
def create_quad_indices (maxIndex indices : ℕ) : Except Unit (List ℕ) :=
  let quads := indices / 6
  create_quad_indices_loop maxIndex quads 0

/-- One six-index group of the quad pattern, as written by the loop body. -/
def quad_group (k : ℕ) : List ℕ :=
  [k * 4, k * 4 + 1, k * 4 + 2, k * 4, k * 4 + 2, k * 4 + 3]

theorem create_quad_indices_loop_eq (maxIndex : ℕ) (remaining : ℕ) :
    ∀ quad : ℕ, (quad + remaining) * 4 ≤ maxIndex + 1 →
      create_quad_indices_loop maxIndex remaining quad
        = .ok ((List.range' quad remaining).map quad_group).flatten := by
  induction remaining with
  | zero => intro quad h; simp [create_quad_indices_loop]
  | succ n ih =>
    intro quad h
    have h0 : quad * 4 ≤ maxIndex := by omega
    have h1 : quad * 4 + 1 ≤ maxIndex := by omega
    have h2 : quad * 4 + 2 ≤ maxIndex := by omega
    have h3 : quad * 4 + 3 ≤ maxIndex := by omega
    have hrec : (quad + 1 + n) * 4 ≤ maxIndex + 1 := by omega
    simp only [create_quad_indices_loop, index_try_into, h0, h1, h2, h3, if_pos,
      ih (quad + 1) hrec, List.range'_succ, List.map_cons, List.flatten_cons,
      quad_group]
    rfl

theorem quad_groups_take_drop (s n k : ℕ) (h : k < n) :
    (((List.range' s n).map quad_group).flatten.drop (6 * k)).take 6
      = quad_group (s + k) := by
  induction n generalizing s k with
  | zero => omega
  | succ m ih =>
    rw [List.range'_succ]
    cases k with
    | zero =>
      simp only [Nat.mul_zero, List.drop_zero, List.map_cons, List.flatten_cons]
      rw [List.take_left' (by simp [quad_group])]
      simp
    | succ j =>
      have hlen : (quad_group s).length = 6 := by simp [quad_group]
      simp only [List.map_cons, List.flatten_cons]
      rw [show 6 * (j + 1) = (quad_group s).length + 6 * j by rw [hlen]; omega]
      rw [List.drop_append (6 * j)]
      rw [ih (s + 1) j (by omega)]
      congr 1
      omega

/-- C5: for every vertex count `V` that is a multiple of 4 (and fits the index
width, `V ≤ maxIndex + 1`), `create_quad_indices` at index count `V / 4 * 6`
succeeds and produces exactly the concatenation of the `V / 4` groups
`[4k, 4k+1, 4k+2, 4k, 4k+2, 4k+3]`; in particular the sequence has length
`V / 4 * 6` and reading it as consecutive groups of six recovers group `k`
at offset `6 * k`. -/
theorem c5_quad_index_correctness (V maxIndex : ℕ) (h4 : V % 4 = 0)
    (hfit : V ≤ maxIndex + 1) :
    create_quad_indices maxIndex (V / 4 * 6)
      = .ok ((List.range (V / 4)).map quad_group).flatten
    ∧ ((List.range (V / 4)).map quad_group).flatten.length = V / 4 * 6
    ∧ ∀ k, k < V / 4 →
        ((((List.range (V / 4)).map quad_group).flatten.drop (6 * k)).take 6
          = [4 * k, 4 * k + 1, 4 * k + 2, 4 * k, 4 * k + 2, 4 * k + 3]) := by
  have hdiv : V / 4 * 6 / 6 = V / 4 := by omega
  have hb : (0 + V / 4) * 4 ≤ maxIndex + 1 := by omega
  refine ⟨?_, ?_, ?_⟩
  · rw [create_quad_indices, hdiv, create_quad_indices_loop_eq maxIndex (V / 4) 0 hb,
      List.range_eq_range']
  · rw [List.length_flatten, List.map_map]
    have hc : List.length ∘ quad_group = fun _ => 6 := by
      funext k; simp [quad_group]
    rw [hc, List.map_const', List.sum_replicate]
    simp [Nat.mul_comm]
  · intro k hk
    rw [List.range_eq_range', quad_groups_take_drop 0 (V / 4) k hk]
    simp [quad_group, Nat.mul_comm]

/-- C5 witness: eight vertices against the 16-bit index width produce the two
groups `[0,1,2,0,2,3]` and `[4,5,6,4,6,7]`. -/
theorem c5_quad_index_correctness_witness :
    create_quad_indices 65535 (8 / 4 * 6)
      = .ok ((List.range (8 / 4)).map quad_group).flatten
    ∧ ((((List.range (8 / 4)).map quad_group).flatten.drop (6 * 1)).take 6
      = [4 * 1, 4 * 1 + 1, 4 * 1 + 2, 4 * 1, 4 * 1 + 2, 4 * 1 + 3]) :=
  ⟨(c5_quad_index_correctness 8 65535 (by decide) (by decide)).1,
   (c5_quad_index_correctness 8 65535 (by decide) (by decide)).2.2 1 (by decide)⟩

/-! ## Claims C3/C4: batched vertex renderer
(`yapgeir_renderer_2d/src/batch_renderer.rs`) -/

/-- `PrimitiveMode` from `yapgeir_graphics_hal/src/index_buffer.rs`. -/
inductive PrimitiveMode where
  | Points
  | Lines
  | LineStrip
  | LineLoop
  | Triangles
  | TriangleStrip
  | TriangleFan
deriving DecidableEq, Repr

/-- `Indices` from `yapgeir_graphics_hal/src/frame_buffer.rs`: topology,
element offset and element count of one physical draw call. -/
structure Indices where
  mode : PrimitiveMode
  offset : ℕ
  len : ℕ
deriving DecidableEq, Repr

/-- `BatchIndices` from `batch_renderer.rs` (the quad index buffer itself is
irrelevant to the vertex-accounting claims, so only the case split is kept). -/
inductive BatchIndices where
  | Quad
  | Primitive (mode : PrimitiveMode)
deriving DecidableEq, Repr

/-- `BatchIndices::indices` from `batch_renderer.rs`: quad batches draw
triangles with `vertices / 4 * 6` indices, primitive batches use the
vertex count directly. -/
def BatchIndices.indices (self : BatchIndices) (vertices : ℕ) : Indices where
  mode := match self with
    | .Quad => .Triangles
    | .Primitive mode => mode
  offset := 0
  len := match self with
    | .Quad => vertices / 4 * 6
    | .Primitive _ => vertices

/-- One physical draw call recorded by `Batch::flush`: the ring slot whose GPU
buffer received the staged bytes, the staged vertex data written at offset
0, and the index descriptor passed to `FrameBuffer::draw`. -/
structure PhysicalDraw (V : Type) where
  buffer : ℕ
  data : List V
  indices : Indices
deriving DecidableEq, Repr

/-- The CPU-observable state of a `BatchRenderer` plus the log of physical
draw calls submitted so far.  `capacity` is the `Vec::with_capacity` bound
of the staging vector (`buffer_size`), `buffer_count` the ring length. -/
structure BatchState (V : Type) where
  unflushed : List V
  capacity : ℕ
  current_buffer : ℕ
  buffer_count : ℕ
  indices : BatchIndices
  submitted : List (PhysicalDraw V)
deriving DecidableEq, Repr

/-- `BatchRenderer::new` from `batch_renderer.rs`: empty staging vector with
capacity `buffer_size`, ring pointer at slot 0, nothing submitted. -/
def BatchRenderer.new (V : Type) (indices : BatchIndices)
    (buffer_size buffer_count : ℕ) : BatchState V where
  unflushed := []
  capacity := buffer_size
  current_buffer := 0
  buffer_count := buffer_count
  indices := indices
  submitted := []

/-- `Batch::flush` from `batch_renderer.rs`: no-op on empty staging; otherwise
write the staged vertices to the current ring slot, record the draw call,
clear staging and advance the ring pointer modulo the ring length. -/
def Batch.flush {V : Type} (s : BatchState V) : BatchState V :=
  if s.unflushed.isEmpty then s
  else
    { s with
      submitted := s.submitted
        ++ [⟨s.current_buffer, s.unflushed, s.indices.indices s.unflushed.length⟩],
      unflushed := [],
      current_buffer := (s.current_buffer + 1) % s.buffer_count }

/-- `Batch::draw` from `batch_renderer.rs`: `assert!(vertices.len() <=
capacity)` (panic modelled as `none`), an implicit flush when the vertices
do not fit the remaining staging space, then append every vertex. -/
def Batch.draw {V : Type} (s : BatchState V) (vertices : List V) :
    Option (BatchState V) :=
  if vertices.length ≤ s.capacity then
    let s := if vertices.length > s.capacity - s.unflushed.length then
        Batch.flush s
      else s
    some { s with unflushed := s.unflushed ++ vertices }
  else
    none

/-- A sequence of `Batch::draw` calls, stopping at the first panic. -/
def Batch.runDraws {V : Type} (s : BatchState V) :
    List (List V) → Option (BatchState V)
  | [] => some s
  | vs :: rest =>
    match Batch.draw s vs with
    | some s' => Batch.runDraws s' rest
    | none => none

/-- The concatenation of all vertex data submitted by physical draw calls. -/
def BatchState.submittedData {V : Type} (s : BatchState V) : List V :=
  (s.submitted.map PhysicalDraw.data).flatten

theorem Batch.flush_submittedData {V : Type} (s : BatchState V) :
    (Batch.flush s).submittedData = s.submittedData ++ s.unflushed := by
  by_cases h : s.unflushed.isEmpty
  · rw [List.isEmpty_iff] at h
    simp [Batch.flush, h, BatchState.submittedData]
  · simp [Batch.flush, h, BatchState.submittedData]

theorem Batch.flush_unflushed {V : Type} (s : BatchState V) :
    (Batch.flush s).unflushed = [] := by
  by_cases h : s.unflushed.isEmpty
  · rw [List.isEmpty_iff] at h
    simp [Batch.flush, h]
  · simp [Batch.flush, h]

theorem Batch.draw_submittedData {V : Type} (s s' : BatchState V) (vs : List V)
    (h : Batch.draw s vs = some s') :
    s'.submittedData ++ s'.unflushed = s.submittedData ++ (s.unflushed ++ vs) := by
  by_cases hfit : vs.length ≤ s.capacity
  · by_cases hov : vs.length > s.capacity - s.unflushed.length
    · simp only [Batch.draw, hfit, if_pos, hov, if_true] at h
      have hs := Option.some.inj h
      subst hs
      have hd := Batch.flush_submittedData s
      simp only [BatchState.submittedData] at hd ⊢
      simp [Batch.flush_unflushed s, hd]
    · simp only [Batch.draw, hfit, if_pos, hov, if_false] at h
      have hs := Option.some.inj h
      subst hs
      simp [BatchState.submittedData]
  · simp [Batch.draw, hfit] at h

theorem Batch.runDraws_submittedData {V : Type} :
    ∀ (draws : List (List V)) (s s' : BatchState V),
      Batch.runDraws s draws = some s' →
      s'.submittedData ++ s'.unflushed
        = s.submittedData ++ (s.unflushed ++ draws.flatten) := by
  intro draws
  induction draws with
  | nil => intro s s' h; simp [Batch.runDraws] at h; simp [h]
  | cons d rest ih =>
    intro s s' h
    cases hd : Batch.draw s d with
    | none => simp [Batch.runDraws, hd] at h
    | some s1 =>
      simp only [Batch.runDraws, hd] at h
      have h1 := Batch.draw_submittedData s s1 d hd
      have h2 := ih s1 s' h
      rw [h2, ← List.append_assoc, h1]
      simp

theorem Batch.runDraws_uniform {V : Type} (C L : ℕ) (hL : 0 < L) (hC : 0 < C)
    (hdvd : L ∣ C) :
    ∀ (draws : List (List V)) (s : BatchState V),
      (∀ d ∈ draws, d.length = L) →
      s.capacity = C →
      L ∣ s.unflushed.length → s.unflushed.length ≤ C →
      ∃ s' : BatchState V, Batch.runDraws s draws = some s'
        ∧ s'.capacity = C
        ∧ L ∣ s'.unflushed.length ∧ s'.unflushed.length ≤ C
        ∧ s'.unflushed.length + s'.submitted.length * C
            = s.unflushed.length + s.submitted.length * C + draws.length * L
        ∧ (draws ≠ [] → 0 < s'.unflushed.length) := by
  have hLC : L ≤ C := Nat.le_of_dvd hC hdvd
  intro draws
  induction draws with
  | nil =>
    intro s _ hcap hdvdu hule
    exact ⟨s, rfl, hcap, hdvdu, hule, by simp, by simp⟩
  | cons d rest ih =>
    intro s hlens hcap hdvdu hule
    have hdL : d.length = L := hlens d (by simp)
    have hfit : d.length ≤ s.capacity := by omega
    by_cases hov : d.length > s.capacity - s.unflushed.length
    · -- the staged data does not fit: u must be exactly C; an implicit flush
      -- submits it and the new vertices land in the emptied staging buffer
      have huC : s.unflushed.length = C := by
        have hdvdrest : L ∣ C - s.unflushed.length :=
          Nat.dvd_sub' (hcap ▸ hdvd) hdvdu
        rcases Nat.eq_zero_or_pos (C - s.unflushed.length) with hz | hpos
        · omega
        · have := Nat.le_of_dvd hpos hdvdrest
          omega
      have hne : ¬s.unflushed.isEmpty := by
        rw [List.isEmpty_iff, ← List.length_eq_zero]
        omega
      have hs1 : Batch.draw s d
          = some { Batch.flush s with unflushed := (Batch.flush s).unflushed ++ d } := by
        simp [Batch.draw, hfit, hov]
      have hflush : (Batch.flush s).unflushed = [] := Batch.flush_unflushed s
      obtain ⟨s', hrun, hc', hd', hl', hacct, hpos'⟩ :=
        ih { Batch.flush s with unflushed := (Batch.flush s).unflushed ++ d }
          (fun x hx => hlens x (by simp [hx]))
          (by simp [Batch.flush, hne, hcap])
          (by simp [hflush, hdL])
          (by simp [hflush, hdL]; omega)
      refine ⟨s', ?_, hc', hd', hl', ?_, fun _ => ?_⟩
      · simp only [Batch.runDraws, hs1, hrun]
      · have hsub : ({ Batch.flush s with
            unflushed := (Batch.flush s).unflushed ++ d } : BatchState V).submitted.length
            = s.submitted.length + 1 := by
          simp [Batch.flush, hne]
        rw [hacct]
        simp only [hsub, hflush, List.nil_append, hdL, List.length_cons]
        rw [huC]
        ring
      · cases hr : rest with
        | nil =>
          rw [hr] at hrun
          have := Option.some.inj hrun
          rw [← this]
          simp [hflush, hdL]
          omega
        | cons a b =>
          exact hpos' (by simp [hr])
    · -- the vertices fit: they are appended to the staging buffer
      have hs1 : Batch.draw s d
          = some { s with unflushed := s.unflushed ++ d } := by
        simp [Batch.draw, hfit, hov]
      obtain ⟨s', hrun, hc', hd', hl', hacct, hpos'⟩ :=
        ih { s with unflushed := s.unflushed ++ d }
          (fun x hx => hlens x (by simp [hx]))
          (by simp [hcap])
          (by simp [hdL]; exact hdvdu)
          (by simp [hdL]; omega)
      refine ⟨s', ?_, hc', hd', hl', ?_, fun _ => ?_⟩
      · simp only [Batch.runDraws, hs1, hrun]
      · rw [hacct]
        simp [hdL]
        ring
      · cases hr : rest with
        | nil =>
          rw [hr] at hrun
          have := Option.some.inj hrun
          rw [← this]
          simp [hdL]
          omega
        | cons a b =>
          exact hpos' (by simp [hr])

theorem flush_count_formula (t C f u : ℕ) (hC : 0 < C) (hu1 : 0 < u) (hu2 : u ≤ C)
    (ht : u + f * C = t) : f = (t + C - 1) / C - 1 := by
  have hfc : (f + 1) * C = f * C + C := by ring
  have h1 : t + C - 1 = (u - 1) + (f + 1) * C := by omega
  rw [h1, Nat.add_mul_div_right _ _ hC, Nat.div_eq_of_lt (by omega)]
  omega

theorem Batch.flush_capacity {V : Type} (s : BatchState V) :
    (Batch.flush s).capacity = s.capacity := by
  by_cases h : s.unflushed.isEmpty <;> simp [Batch.flush, h]

/-- C3 counterexample: capacity 10 with three draws of six vertices each
(each ≤ 10, cumulative 18 > 10) triggers two implicit flushes, while the
claimed formula `ceil(total / capacity) - 1` yields one: a flush discards
the remaining free space of the staging buffer, so the claimed count is
only an upper-bound match for perfectly packing draw sizes. -/
theorem c3_flush_count_counterexample :
    (Batch.runDraws (BatchRenderer.new ℕ .Quad 10 2)
        [[0, 1, 2, 3, 4, 5], [6, 7, 8, 9, 10, 11], [12, 13, 14, 15, 16, 17]]).map
      (fun s => s.submitted.length) = some 2
    ∧ (6 + 6 + 6 + 10 - 1) / 10 - 1 = 1
    ∧ (2 : ℕ) ≠ 1 :=
  ⟨by decide, by decide, by decide⟩

/-- C3 (amended): (a) when every draw call passes the same vertex count `L`
and `L` divides the capacity `C` (so draws pack the staging buffer
exactly), the number of implicit flushes performed before the batch is
dropped equals `ceil(total / C) - 1`; in general each draw that finds
insufficient remaining staging space triggers one implicit flush, which can
exceed that formula (see the counterexample).  (b) Unconditionally, the
concatenation of the vertex data of all physical draw calls including the
final flush on drop equals the concatenation of all draw arguments — no
vertex is lost or duplicated across flush boundaries. -/
theorem c3_batch_flush_correctness :
    (∀ (V : Type) (draws : List (List V)) (C L count : ℕ) (idx : BatchIndices),
      0 < L → L ∣ C → 0 < C → (∀ d ∈ draws, d.length = L) → draws ≠ [] →
      ∃ s' : BatchState V,
        Batch.runDraws (BatchRenderer.new V idx C count) draws = some s'
        ∧ s'.submitted.length = (draws.length * L + C - 1) / C - 1)
    ∧ (∀ (V : Type) (draws : List (List V)) (C count : ℕ) (idx : BatchIndices)
        (s' : BatchState V),
      Batch.runDraws (BatchRenderer.new V idx C count) draws = some s' →
      (Batch.flush s').submittedData = draws.flatten) := by
  constructor
  · intro V draws C L count idx hL hdvd hC hlens hne
    obtain ⟨s', hrun, _, _, hule, hacct, hpos⟩ :=
      Batch.runDraws_uniform C L hL hC hdvd draws
        (BatchRenderer.new V idx C count) hlens rfl (by simp [BatchRenderer.new])
        (by simp [BatchRenderer.new])
    refine ⟨s', hrun, ?_⟩
    have hu : 0 < s'.unflushed.length := hpos hne
    simp only [BatchRenderer.new, List.length_nil, List.length,
      Nat.zero_add, Nat.zero_mul, Nat.add_zero] at hacct
    exact flush_count_formula (draws.length * L) C s'.submitted.length
      s'.unflushed.length hC hu hule (by omega)
  · intro V draws C count idx s' hrun
    have h := Batch.runDraws_submittedData draws (BatchRenderer.new V idx C count)
      s' hrun
    rw [Batch.flush_submittedData s', h]
    simp [BatchRenderer.new, BatchState.submittedData]

/-- C3 witness: capacity 10, three draws of five vertices (5 divides 10):
exactly `ceil(15/10) - 1 = 1` implicit flush, and flushing at the end
reproduces the concatenated draw data. -/
theorem c3_batch_flush_correctness_witness :
    (∃ s' : BatchState ℕ,
      Batch.runDraws (BatchRenderer.new ℕ .Quad 10 2)
        [[0, 1, 2, 3, 4], [5, 6, 7, 8, 9], [10, 11, 12, 13, 14]] = some s'
      ∧ s'.submitted.length = (3 * 5 + 10 - 1) / 10 - 1)
    ∧ (Batch.flush ⟨[10, 11, 12, 13, 14], 10, 1, 2, .Quad,
        [⟨0, [0, 1, 2, 3, 4, 5, 6, 7, 8, 9], .mk .Triangles 0 12⟩]⟩).submittedData
      = [[0, 1, 2, 3, 4], [5, 6, 7, 8, 9], [10, 11, 12, 13, 14]].flatten :=
  ⟨c3_batch_flush_correctness.1 ℕ _ 10 5 2 .Quad (by decide) (by decide)
      (by decide) (by decide) (by decide),
   c3_batch_flush_correctness.2 ℕ _ 10 2 .Quad _ (by decide)⟩

/-- C4: a draw whose vertex slice exceeds the staging capacity panics before
appending anything; starting from a fresh renderer the staging size is
bounded by the capacity, flushing always empties the staging buffer, and
under the precondition that a draw passes at most `capacity` vertices the
bound `unflushed.len() <= capacity` is preserved by every draw — when the
vertices do not fit the remaining space, the implicit flush empties staging
first and the new vertices are exactly the staging content afterwards. -/
theorem c4_batch_capacity_invariant :
    (∀ (V : Type) (s : BatchState V) (vertices : List V),
      s.capacity < vertices.length → Batch.draw s vertices = none)
    ∧ (∀ (V : Type) (idx : BatchIndices) (C count : ℕ),
      (BatchRenderer.new V idx C count).unflushed.length ≤ C)
    ∧ (∀ (V : Type) (s : BatchState V),
      (Batch.flush s).unflushed = [] ∧ (Batch.flush s).unflushed.length ≤ s.capacity)
    ∧ (∀ (V : Type) (s : BatchState V) (vertices : List V) (s' : BatchState V),
      s.unflushed.length ≤ s.capacity → vertices.length ≤ s.capacity →
      Batch.draw s vertices = some s' →
      s'.capacity = s.capacity
      ∧ s'.unflushed.length ≤ s'.capacity
      ∧ (vertices.length > s.capacity - s.unflushed.length →
          s'.unflushed = vertices)) := by
  refine ⟨?_, ?_, ?_, ?_⟩
  · intro V s vertices h
    have hc : ¬vertices.length ≤ s.capacity := by omega
    unfold Batch.draw
    rw [if_neg hc]
  · intro V idx C count
    simp [BatchRenderer.new]
  · intro V s
    exact ⟨Batch.flush_unflushed s, by rw [Batch.flush_unflushed s]; simp⟩
  · intro V s vertices s' hinv hpre hdraw
    by_cases hov : vertices.length > s.capacity - s.unflushed.length
    · simp only [Batch.draw, if_pos hpre, hov, if_true] at hdraw
      have hs := Option.some.inj hdraw
      subst hs
      refine ⟨Batch.flush_capacity s, ?_, fun _ => ?_⟩
      · simp [Batch.flush_unflushed s, Batch.flush_capacity s, hpre]
      · simp [Batch.flush_unflushed s]
    · simp only [Batch.draw, if_pos hpre, hov, if_false] at hdraw
      have hs := Option.some.inj hdraw
      subst hs
      exact ⟨rfl, by simp; omega, fun hc => absurd hc hov⟩

/-- C4 witness: a three-vertex draw panics at capacity two; a fitting draw on
a fresh capacity-ten renderer keeps the staging bound. -/
theorem c4_batch_capacity_invariant_witness :
    Batch.draw (BatchRenderer.new ℕ .Quad 2 1) [0, 1, 2] = none
    ∧ (⟨[1, 2], 10, 0, 1, .Quad, []⟩ : BatchState ℕ).unflushed.length
        ≤ (⟨[1, 2], 10, 0, 1, .Quad, []⟩ : BatchState ℕ).capacity :=
  ⟨c4_batch_capacity_invariant.1 ℕ _ _ (by decide),
   (c4_batch_capacity_invariant.2.2.2 ℕ (BatchRenderer.new ℕ .Quad 10 1) [1, 2]
      _ (by decide) (by decide) (by decide)).2.1⟩

/-! ## Claim C6: texture upload size assertions
(`yapgeir_graphics_hal_gles2/src/texture.rs`) -/

/-- `RgbLayout` from `texture.rs`. -/
inductive RgbLayout where
  | U8
  | U16_5_6_5
deriving DecidableEq, Repr

/-- `RgbaLayout` from `texture.rs`. -/
inductive RgbaLayout where
  | U8
  | U16_4_4_4_4
  | U16_5_5_5_1
deriving DecidableEq, Repr

/-- `GlesPixelFormat` from `texture.rs`. -/
inductive GlesPixelFormat where
  | Alpha
  | Lumi
  | Lumia
  | Rgb (layout : RgbLayout)
  | Rgba (layout : RgbaLayout)
deriving DecidableEq, Repr

/-- `GlesPixelFormat::stride` from `texture.rs`: bytes per texel. -/
def GlesPixelFormat.stride : GlesPixelFormat → ℕ
  | .Alpha => 1
  | .Lumi => 1
  | .Lumia => 2
  | .Rgb layout =>
    match layout with
    | .U8 => 3
    | .U16_5_6_5 => 2
  | .Rgba layout =>
    match layout with
    | .U8 => 4
    | .U16_4_4_4_4 => 2
    | .U16_5_5_5_1 => 2

/-- The base GL format enum (the first component of `GlesPixelFormat::gl`);
both `Rgb` layouts share `glow::RGB`, both 16-bit `Rgba` layouts share
`glow::RGBA`. -/
inductive GlBaseFormat where
  | ALPHA
  | LUMINANCE
  | LUMINANCE_ALPHA
  | RGB
  | RGBA
deriving DecidableEq, Repr

/-- The first component of `GlesPixelFormat::gl` from `texture.rs`. -/
def GlesPixelFormat.glFormat : GlesPixelFormat → GlBaseFormat
  | .Alpha => .ALPHA
  | .Lumi => .LUMINANCE
  | .Lumia => .LUMINANCE_ALPHA
  | .Rgb _ => .RGB
  | .Rgba _ => .RGBA

/-- The CPU-observable identity of a `GlesTexture`: its pixel format and size
(the GL handle and context are irrelevant to the size assertions). -/
structure GlesTextureModel where
  format : GlesPixelFormat
  size : Size ℕ
deriving DecidableEq, Repr

/-- `GlesTexture::new` from `texture.rs`: when initial pixel bytes are given,
`assert_eq!(bytes.len(), (size.w * size.h) as usize * stride)`; a failed
assertion is the `Except.error` case. -/
def GlesTexture.new (format : GlesPixelFormat) (size : Size ℕ)
    (bytes : Option (List ℕ)) : Except String GlesTextureModel :=
  match bytes with
  | some bytes =>
    if bytes.length = size.w * size.h * format.stride then
      .ok ⟨format, size⟩
    else
      .error "assertion failed: bytes.len() == (size.w * size.h) * stride"
  | none => .ok ⟨format, size⟩

/-- `GlesTexture::write` from `texture.rs`: asserts that the supplied format's
base GL format equals the texture's, then that the byte length matches the
covered area times the supplied format's stride. -/
def GlesTexture.write (self : GlesTextureModel) (mipmap_level : ℕ)
    (format : GlesPixelFormat) (size : Size ℕ) (bytes : List ℕ) :
    Except String Unit :=
  if format.glFormat ≠ self.format.glFormat then
    .error "format must not change"
  else if bytes.length ≠ size.w * size.h * format.stride then
    .error "assertion failed: bytes.len() == (size.w * size.h) * stride"
  else
    .ok ()

/-- `GlesTexture::write_rect` from `texture.rs`: like `write` with the area of
the destination rectangle. -/
def GlesTexture.write_rect (self : GlesTextureModel) (mipmap_level : ℕ)
    (format : GlesPixelFormat) (rect : Rect ℕ) (bytes : List ℕ) :
    Except String Unit :=
  if format.glFormat ≠ self.format.glFormat then
    .error "format must not change"
  else if bytes.length ≠ rect.w * rect.h * format.stride then
    .error "assertion failed: bytes.len() == (rect.w * rect.h) * stride"
  else
    .ok ()

/-- C6 counterexample: `write` with a correctly sized byte slice still panics
when the supplied format's base GL format differs from the texture's
(`assert_eq!(format, self.format.gl().0, "format must not change")`), so
"panics if and only if the length differs" is false. -/
theorem c6_size_check_counterexample :
    GlesTexture.write ⟨.Rgba .U8, ⟨1, 1⟩⟩ 0 .Alpha ⟨1, 1⟩ [0]
      = .error "format must not change"
    ∧ ([0] : List ℕ).length = 1 * 1 * GlesPixelFormat.stride .Alpha :=
  ⟨rfl, by decide⟩

/-- C6 (amended): creation with initial pixel data panics if and only if the
byte length differs from `w * h * stride` (creation without data never
panics); whole-image and sub-rectangle writes panic if and only if the
supplied format's base GL format differs from the texture's or the byte
length differs from the covered area times the supplied format's stride;
when the checks pass, the upload proceeds with no recoverable error path. -/
theorem c6_texture_upload_size_assertions :
    (∀ (format : GlesPixelFormat) (size : Size ℕ) (bytes : List ℕ),
      GlesTexture.new format size (some bytes) = .ok ⟨format, size⟩
        ↔ bytes.length = size.w * size.h * format.stride)
    ∧ (∀ (format : GlesPixelFormat) (size : Size ℕ),
      GlesTexture.new format size none = .ok ⟨format, size⟩)
    ∧ (∀ (self : GlesTextureModel) (ml : ℕ) (format : GlesPixelFormat)
        (size : Size ℕ) (bytes : List ℕ),
      GlesTexture.write self ml format size bytes = .ok ()
        ↔ (format.glFormat = self.format.glFormat
          ∧ bytes.length = size.w * size.h * format.stride))
    ∧ (∀ (self : GlesTextureModel) (ml : ℕ) (format : GlesPixelFormat)
        (rect : Rect ℕ) (bytes : List ℕ),
      GlesTexture.write_rect self ml format rect bytes = .ok ()
        ↔ (format.glFormat = self.format.glFormat
          ∧ bytes.length = rect.w * rect.h * format.stride)) := by
  refine ⟨?_, ?_, ?_, ?_⟩
  · intro format size bytes
    by_cases h : bytes.length = size.w * size.h * format.stride <;>
      simp [GlesTexture.new, h]
  · intro format size
    rfl
  · intro self ml format size bytes
    by_cases hf : format.glFormat = self.format.glFormat <;>
      by_cases hl : bytes.length = size.w * size.h * format.stride <;>
        simp [GlesTexture.write, hf, hl]
  · intro self ml format rect bytes
    by_cases hf : format.glFormat = self.format.glFormat <;>
      by_cases hl : bytes.length = rect.w * rect.h * format.stride <;>
        simp [GlesTexture.write_rect, hf, hl]

/-! ## Claim C7: sprite texture-region mapping
(`yapgeir_renderer_2d/src/sprite_renderer.rs`, `yapgeir_geometry`) -/

/-- `TextureRegion` from `sprite_renderer.rs`; texel coordinates are modelled
over `ℚ` (exact arithmetic in place of `f32`). -/
inductive TextureRegion where
  | Full
  | Pixels (rect : Rect ℕ)
  | Texels (rect : Rect ℚ)
  | TexelsRect (rect : Rect ℚ)
  | TexelsBox2D (box2d : Box2D ℚ)

/-- `TextureRegion::to_texel_quad` from `sprite_renderer.rs`: normalize a
pixel rectangle by the texture size, or take the points of the
already-normalized rect/box. -/
def TextureRegion.to_texel_quad : TextureRegion → Size ℕ → List (ℚ × ℚ)
  | .Full, _ => (Rect.mk (0 : ℚ) 0 1 1).points
  | .TexelsBox2D box2d, _ => box2d.points
  | .Texels rect, _ => rect.points
  | .TexelsRect rect, _ => rect.points
  | .Pixels rect, texture_size =>
    (Rect.mk ((rect.x : ℚ) / (texture_size.w : ℚ))
      ((rect.y : ℚ) / (texture_size.h : ℚ))
      ((rect.w : ℚ) / (texture_size.w : ℚ))
      ((rect.h : ℚ) / (texture_size.h : ℚ))).points

/-- C7: a pixel rectangle `(x, y, w, h)` against texture size `(W, H)` maps to
the normalized texel corner quad `(x/W, y/H) .. ((x+w)/W, (y+h)/H)` (in the
corner order of `Rect::points`), and the equivalent `TexelsRect` and
`TexelsBox2D` constructors produce exactly the same quad. -/
theorem c7_texture_region_mapping (x y w h W H : ℕ) :
    TextureRegion.to_texel_quad (.Pixels ⟨x, y, w, h⟩) ⟨W, H⟩
      = [((x : ℚ) / W, (y : ℚ) / H),
         ((x : ℚ) / W, ((y : ℚ) + h) / H),
         (((x : ℚ) + w) / W, ((y : ℚ) + h) / H),
         (((x : ℚ) + w) / W, (y : ℚ) / H)]
    ∧ TextureRegion.to_texel_quad (.Pixels ⟨x, y, w, h⟩) ⟨W, H⟩
      = TextureRegion.to_texel_quad
          (.TexelsRect ⟨(x : ℚ) / W, (y : ℚ) / H, (w : ℚ) / W, (h : ℚ) / H⟩)
          ⟨W, H⟩
    ∧ TextureRegion.to_texel_quad (.Pixels ⟨x, y, w, h⟩) ⟨W, H⟩
      = TextureRegion.to_texel_quad
          (.TexelsBox2D ⟨((x : ℚ) / W, (y : ℚ) / H),
            (((x : ℚ) + w) / W, ((y : ℚ) + h) / H)⟩)
          ⟨W, H⟩ := by
  refine ⟨?_, ?_, ?_⟩ <;>
    simp [TextureRegion.to_texel_quad, Rect.points, Box2D.points,
      div_add_div_same]

/-! ## Claim C8: PingPong animation stepping
(`yapgeir_world_2d_sprites/src/animation.rs`,
`yapgeir_assets/src/animations/mod.rs`) -/

/-- `AnimationKind` from `yapgeir_assets/src/animations/mod.rs`. -/
inductive AnimationKind where
  | Loop
  | PingPong
  | Single
deriving DecidableEq, Repr

/-- `Animation` from `yapgeir_assets/src/animations/mod.rs`, reduced to what
the stepping logic reads: the number of frames (`frames.len()`) and the
playback kind (drawable contents and `frame_time` are irrelevant here). -/
structure Animation where
  frames : ℕ
  kind : AnimationKind
deriving DecidableEq, Repr

/-- `Animation::is_last_frame`: `self.frames.len() - 1 <= frame` (saturating
`usize` subtraction at zero frames mirrors the release-mode behavior). -/
def Animation.is_last_frame (self : Animation) (frame : ℕ) : Bool :=
  self.frames - 1 ≤ frame

/-- `Frame` from `animation.rs`: current index and ping-pong direction flag. -/
structure Frame where
  index : ℕ
  reversed : Bool
deriving DecidableEq, Repr

/-- `next_frame` from `animation.rs`. -/
def next_frame (animation : Animation) (frame : Frame) : Frame :=
  let is_last_frame := animation.is_last_frame frame.index
  match animation.kind with
  | .Loop =>
    { index := if is_last_frame then 0 else frame.index + 1
      reversed := false }
  | .PingPong =>
    let reversed := is_last_frame || (frame.reversed && decide (frame.index > 0))
    { index := if reversed then frame.index - 1 else frame.index + 1
      reversed := reversed }
  | .Single =>
    { index := frame.index + 1
      reversed := false }

/-- The three-frame PingPong animation of the claim. -/
def pingPong3 : Animation := ⟨3, .PingPong⟩

/-- The orbit of `Frame::default()` under repeated `next_frame`. -/
def frame_orbit (animation : Animation) : ℕ → Frame
  | 0 => ⟨0, false⟩
  | n + 1 => next_frame animation (frame_orbit animation n)

theorem pingpong_orbit_spec (k : ℕ) :
    frame_orbit pingPong3 (4 * k + 1) = ⟨1, false⟩
    ∧ frame_orbit pingPong3 (4 * k + 2) = ⟨2, false⟩
    ∧ frame_orbit pingPong3 (4 * k + 3) = ⟨1, true⟩
    ∧ frame_orbit pingPong3 (4 * k + 4) = ⟨0, true⟩ := by
  induction k with
  | zero => exact ⟨rfl, rfl, rfl, rfl⟩
  | succ m ih =>
    obtain ⟨h1, h2, h3, h4⟩ := ih
    refine ⟨?_, ?_, ?_, ?_⟩
    · rw [show 4 * (m + 1) + 1 = (4 * m + 4) + 1 by ring, frame_orbit, h4]
      decide
    · rw [show 4 * (m + 1) + 2 = (4 * (m + 1) + 1) + 1 by ring, frame_orbit,
        show 4 * (m + 1) + 1 = (4 * m + 4) + 1 by ring, frame_orbit, h4]
      decide
    · rw [show 4 * (m + 1) + 3 = ((4 * (m + 1) + 1) + 1) + 1 by ring, frame_orbit,
        frame_orbit, show 4 * (m + 1) + 1 = (4 * m + 4) + 1 by ring, frame_orbit, h4]
      decide
    · rw [show 4 * (m + 1) + 4 = (((4 * (m + 1) + 1) + 1) + 1) + 1 by ring,
        frame_orbit, frame_orbit, frame_orbit,
        show 4 * (m + 1) + 1 = (4 * m + 4) + 1 by ring, frame_orbit, h4]
      decide

theorem pingpong_orbit_closed (n : ℕ) :
    frame_orbit pingPong3 n =
      if n = 0 then ⟨0, false⟩
      else if n % 4 = 1 then ⟨1, false⟩
      else if n % 4 = 2 then ⟨2, false⟩
      else if n % 4 = 3 then ⟨1, true⟩
      else ⟨0, true⟩ := by
  rcases Nat.eq_zero_or_pos n with h0 | hpos
  · subst h0; rfl
  · obtain ⟨h1, h2, h3, h4⟩ := pingpong_orbit_spec ((n - 1) / 4)
    have hne : ¬n = 0 := by omega
    have hcases : (n - 1) % 4 = 0 ∨ (n - 1) % 4 = 1 ∨ (n - 1) % 4 = 2
        ∨ (n - 1) % 4 = 3 := by omega
    rcases hcases with hr | hr | hr | hr
    · have hm : n % 4 = 1 := by omega
      rw [if_neg hne, if_pos hm, show n = 4 * ((n - 1) / 4) + 1 by omega]
      exact h1
    · have hm : n % 4 = 2 := by omega
      rw [if_neg hne, if_neg (by omega), if_pos hm,
        show n = 4 * ((n - 1) / 4) + 2 by omega]
      exact h2
    · have hm : n % 4 = 3 := by omega
      rw [if_neg hne, if_neg (by omega), if_neg (by omega), if_pos hm,
        show n = 4 * ((n - 1) / 4) + 3 by omega]
      exact h3
    · have hm : n % 4 = 0 := by omega
      rw [if_neg hne, if_neg (by omega), if_neg (by omega), if_neg (by omega),
        show n = 4 * ((n - 1) / 4) + 4 by omega]
      exact h4

/-- C8: starting from `Frame { index: 0, reversed: false }`, the three-frame
PingPong orbit visits the index pattern 0,1,2,1,0,1,2,... (index is 2
exactly when the step count is 2 mod 4); index 2 is never produced twice in
a row; the reversed flag becomes true when leaving index 2, becomes false
when leaving index 0, and changes value only when leaving index 0 or 2. -/
theorem c8_pingpong_boundary :
    (∀ n : ℕ, (frame_orbit pingPong3 n).index
      = if n % 4 = 2 then 2 else if n % 4 = 0 then 0 else 1)
    ∧ (∀ n : ℕ, ¬((frame_orbit pingPong3 n).index = 2
      ∧ (frame_orbit pingPong3 (n + 1)).index = 2))
    ∧ (∀ n : ℕ, (frame_orbit pingPong3 n).index = 2 →
      (frame_orbit pingPong3 (n + 1)).reversed = true)
    ∧ (∀ n : ℕ, (frame_orbit pingPong3 n).index = 0 →
      (frame_orbit pingPong3 (n + 1)).reversed = false)
    ∧ (∀ n : ℕ, (frame_orbit pingPong3 (n + 1)).reversed
        ≠ (frame_orbit pingPong3 n).reversed →
      (frame_orbit pingPong3 n).index = 2 ∨ (frame_orbit pingPong3 n).index = 0) := by
  have key : ∀ n : ℕ, ∀ g : Frame → Frame → Prop,
      (g ⟨0, false⟩ ⟨1, false⟩) →
      (g ⟨1, false⟩ ⟨2, false⟩) →
      (g ⟨2, false⟩ ⟨1, true⟩) →
      (g ⟨1, true⟩ ⟨0, true⟩) →
      (g ⟨0, true⟩ ⟨1, false⟩) →
      g (frame_orbit pingPong3 n) (frame_orbit pingPong3 (n + 1)) := by
    intro n g g1 g2 g3 g4 g5
    rw [pingpong_orbit_closed n, pingpong_orbit_closed (n + 1)]
    rcases Nat.eq_zero_or_pos n with rfl | hpos
    · simpa using g1
    · have hne : ¬n = 0 := by omega
      have hne1 : ¬n + 1 = 0 := by omega
      have hcases : n % 4 = 0 ∨ n % 4 = 1 ∨ n % 4 = 2 ∨ n % 4 = 3 := by omega
      rcases hcases with hr | hr | hr | hr
      · have hr1 : (n + 1) % 4 = 1 := by omega
        simp only [if_neg hne, if_neg hne1, hr, hr1]
        simpa using g5
      · have hr1 : (n + 1) % 4 = 2 := by omega
        simp only [if_neg hne, if_neg hne1, hr, hr1]
        simpa using g2
      · have hr1 : (n + 1) % 4 = 3 := by omega
        simp only [if_neg hne, if_neg hne1, hr, hr1]
        simpa using g3
      · have hr1 : (n + 1) % 4 = 0 := by omega
        simp only [if_neg hne, if_neg hne1, hr, hr1]
        simpa using g4
  refine ⟨?_, ?_, ?_, ?_, ?_⟩
  · intro n
    rw [pingpong_orbit_closed n]
    rcases Nat.eq_zero_or_pos n with rfl | hpos
    · rfl
    · have hne : ¬n = 0 := by omega
      have hcases : n % 4 = 0 ∨ n % 4 = 1 ∨ n % 4 = 2 ∨ n % 4 = 3 := by omega
      rcases hcases with hr | hr | hr | hr <;> simp [hne, hr]
  · intro n
    exact key n (fun a b => ¬(a.index = 2 ∧ b.index = 2))
      (by simp) (by simp) (by simp) (by simp) (by simp)
  · intro n
    exact key n (fun a b => a.index = 2 → b.reversed = true)
      (by simp) (by simp) (by simp) (by simp) (by simp)
  · intro n
    exact key n (fun a b => a.index = 0 → b.reversed = false)
      (by simp) (by simp) (by simp) (by simp) (by simp)
  · intro n
    exact key n (fun a b => b.reversed ≠ a.reversed → a.index = 2 ∨ a.index = 0)
      (by simp) (by simp) (by simp) (by simp) (by simp)

/-- C8 witness: the boundary theorem applied at the first turn-around — index
2 at step 2 forces the reversed flag at step 3. -/
theorem c8_pingpong_boundary_witness :
    (frame_orbit pingPong3 3).reversed = true :=
  c8_pingpong_boundary.2.2.1 2 (by decide)

/-! ## Sampler binding (`yapgeir_graphics_hal_gles2/src/samplers.rs`) -/

/-- Association-list insert, overwriting an existing key (the model of
`HashMap::insert`). -/
def assocPut {α β : Type} [BEq α] (l : List (α × β)) (key : α) (value : β) :
    List (α × β) :=
  (key, value) :: l.filter (fun p => p.1 != key)

/-- `GlesContextRef::clean_texture` from `samplers.rs`. -/
def clean_texture (s : GlesState) (texture : ℕ) : GlesState :=
  { s with samplers := { s.samplers with
      fallback_cache := s.samplers.fallback_cache.filter (fun p => p.1 != texture) } }

/-- `GlesContextRef::get_sampler_object` from `samplers.rs`: look the sampler
state up in the cache, creating (and configuring) a fresh GL sampler object
on a miss.  The fresh handle comes from the `fresh_sampler` counter. -/
def get_sampler_object (s : GlesState) (state : SamplerState) :
    GlesState × List GlCall × ℕ :=
  match s.samplers.real_cache.lookup state with
  | some sampler => (s, [], sampler)
  | none =>
    let sampler := s.fresh_sampler
    ({ s with
        fresh_sampler := s.fresh_sampler + 1
        samplers := { s.samplers with
          real_cache := assocPut s.samplers.real_cache state sampler } },
      [GlCall.createSampler sampler,
       GlCall.samplerParameter sampler .TEXTURE_WRAP_S,
       GlCall.samplerParameter sampler .TEXTURE_WRAP_T,
       GlCall.samplerParameter sampler .TEXTURE_MIN_FILTER,
       GlCall.samplerParameter sampler .TEXTURE_MAG_FILTER],
      sampler)

/-- `GlesContextRef::bind_sampler_object` from `samplers.rs`. -/
def bind_sampler_object (s : GlesState) (unit : ℕ) (state : SamplerState) :
    GlesState × List GlCall :=
  if (s.texture_units.getD unit TextureUnit.initial).sampler = state then
    (s, [])
  else
    let r := get_sampler_object s state
    let s := r.1
    let u := s.texture_units.getD unit TextureUnit.initial
    ({ s with texture_units := s.texture_units.set unit { u with sampler := state } },
      r.2.1 ++ [GlCall.bindSampler unit r.2.2])

/-- `GlesContextRef::bind_sampling_data` from `samplers.rs`: the fallback when
sampler objects are unsupported — mutate the bound texture's own sampling
parameters, cached per texture. -/
def bind_sampling_data (s : GlesState) (unit : ℕ) (state : SamplerState) :
    GlesState × List GlCall :=
  match (s.texture_units.getD unit TextureUnit.initial).texture with
  | none => (s, [])
  | some texture =>
    if s.samplers.fallback_cache.lookup texture = some state then
      (s, [])
    else
      let r := activate_texture_unit s unit
      let s := r.1
      let u := s.texture_units.getD unit TextureUnit.initial
      ({ s with
          texture_units := s.texture_units.set unit { u with sampler := state }
          samplers := { s.samplers with
            fallback_cache := assocPut s.samplers.fallback_cache texture state } },
        r.2 ++ [GlCall.texParameter .TEXTURE_WRAP_S,
          GlCall.texParameter .TEXTURE_WRAP_T,
          GlCall.texParameter .TEXTURE_MIN_FILTER,
          GlCall.texParameter .TEXTURE_MAG_FILTER])

/-- `GlesContextRef::bind_sampler` from `samplers.rs`: real sampler objects
when the extension is present, texture-parameter fallback otherwise. -/
def bind_sampler (extensions : Extensions) (s : GlesState) (unit : ℕ)
    (state : SamplerState) : GlesState × List GlCall :=
  if extensions.sampler_objects then
    bind_sampler_object s unit state
  else
    bind_sampling_data s unit state

/-! ## Draw-call texture binding
(`yapgeir_graphics_hal_gles2/src/frame_buffer.rs`) -/

/-- `ShaderState` from `shader.rs`: per sampler-uniform name, its GL uniform
location and the texture unit the shader last bound it to (`0` initially).
`sampler_uniforms` models the GL program's integer uniform store keyed by
location (GL initializes sampler uniforms to 0). -/
structure ShaderState where
  sampler_attributes : List (String × ℕ × ℕ)
  sampler_uniforms : List (ℕ × ℤ)
deriving DecidableEq, Repr

/-- Update the cached unit of every entry with the given name. -/
def setCachedUnitList (l : List (String × ℕ × ℕ)) (name : String) (unit : ℕ) :
    List (String × ℕ × ℕ) :=
  l.map (fun p => if p.1 = name then (p.1, p.2.1, unit) else p)

/-- Write `*cached_unit = unit` for one sampler name. -/
def ShaderState.setCachedUnit (ss : ShaderState) (name : String) (unit : ℕ) :
    ShaderState :=
  { ss with sampler_attributes := setCachedUnitList ss.sampler_attributes name unit }

/-- `gl.uniform_1_i32(Some(&location), v)`: write the program's uniform store. -/
def ShaderState.setUniform (ss : ShaderState) (location : ℕ) (value : ℤ) :
    ShaderState :=
  { ss with sampler_uniforms := assocPut ss.sampler_uniforms location value }

/-- The mutable context one `bind_textures` call threads through its
`bind_texture` calls: the GL state mirror, the `BitArray<u32>` of units
claimed by this draw call, the shader's state, the `no_free_units` flag and
the accumulated driver calls. -/
structure BindTexturesCtx where
  state : GlesState
  used_units : List Bool
  shader : ShaderState
  no_free_units : Bool
  calls : List GlCall

/-- The "check if no binding is necessary" block of `bind_texture` from
`frame_buffer.rs`: reuse the shader's cached unit when it already holds the
texture, rebinding only the sampler when that unit is not claimed by this
draw call (or when sampler objects are unsupported).  `none` means the
block fell through to the allocation path. -/
def draw_bind_check (extensions : Extensions) (c : BindTexturesCtx)
    (cached_unit : ℕ) (sampler : SamplerState) (texture : ℕ) :
    Option BindTexturesCtx :=
  let unit := cached_unit
  let unit_data := c.state.texture_units.getD unit TextureUnit.initial
  if unit_data.texture = some texture then
    if unit_data.sampler = sampler then
      some { c with used_units := c.used_units.set unit true }
    else
      -- A sampler can be changed only if its location is not used by
      -- another binding for this draw call.
      let can_reuse := !extensions.sampler_objects
        || !(c.used_units.getD unit false)
      if can_reuse then
        let r := bind_sampler extensions c.state unit sampler
        some { c with
          used_units := c.used_units.set unit true
          state := r.1
          calls := c.calls ++ r.2 }
      else none
  else none

/-- The tail of `bind_texture`'s allocation path once a target unit is found:
activate the unit, bind the texture there, bind the sampler, write the
sampler uniform to the unit index, update the shader's unit cache and mark
the unit used. -/
def alloc_mid (c : BindTexturesCtx) (texture : ℕ) (unit : ℕ) : GlesState :=
  let s1 := (activate_texture_unit c.state unit).1
  let u := s1.texture_units.getD unit TextureUnit.initial
  { s1 with
    texture_units := s1.texture_units.set unit { u with texture := some texture } }

def draw_bind_alloc_at (extensions : Extensions) (c : BindTexturesCtx)
    (name : String) (location : ℕ) (sampler : SamplerState) (texture : ℕ)
    (unit : ℕ) (no_free_units : Bool) : BindTexturesCtx :=
  let r1 := activate_texture_unit c.state unit
  let r2 := bind_sampler extensions (alloc_mid c texture unit) unit sampler
  { state := r2.1
    used_units := c.used_units.set unit true
    shader := (c.shader.setCachedUnit name unit).setUniform location
      (Int.ofNat unit)
    no_free_units := no_free_units
    calls := c.calls ++ r1.2 ++ [GlCall.bindTexture (some texture)] ++ r2.2
      ++ [GlCall.uniform1i location (Int.ofNat unit)] }

/-- The allocation path of `bind_texture` from `frame_buffer.rs`: scan for a
unit with no texture (caching exhaustion in `no_free_units`), fall back to
any unit not yet claimed by this draw call, and panic (`none`) when every
unit is claimed; then bind texture, sampler and uniform at the found unit. -/
def free_scan_fn (c : BindTexturesCtx) : Option ℕ :=
  if c.no_free_units then none
  else (List.range c.state.texture_unit_limit).find?
    (fun i => (c.state.texture_units.getD i TextureUnit.initial).texture = none)

def second_scan_fn (c : BindTexturesCtx) : Option ℕ :=
  (List.range c.state.texture_unit_limit).find?
    (fun i => !(c.used_units.getD i false))

def draw_bind_alloc (extensions : Extensions) (c : BindTexturesCtx)
    (name : String) (location : ℕ) (sampler : SamplerState) (texture : ℕ) :
    Option BindTexturesCtx :=
  let free_scan := free_scan_fn c
  let no_free_units := if c.no_free_units then true else free_scan.isNone
  -- Find an unused slot and bind texture and sampler there.
  let unit? := match free_scan with
    | some u => some u
    | none => second_scan_fn c
  match unit? with
  | none => none  -- expect: Trying to bind more textures than there are slots
  | some unit =>
    some (draw_bind_alloc_at extensions c name location sampler texture unit
      no_free_units)

/-- `bind_texture` from `frame_buffer.rs` (the draw-call sampler binder): skip
unknown names, then try the cached-unit check block, then allocate. -/
def draw_bind_texture (extensions : Extensions) (c : BindTexturesCtx)
    (name : String) (sampler : SamplerState) (texture : ℕ) :
    Option BindTexturesCtx :=
  -- Skip if shader has no texture binding with this name
  match c.shader.sampler_attributes.lookup name with
  | none => some c
  | some (location, cached_unit) =>
    match draw_bind_check extensions c cached_unit sampler texture with
    | some c => some c
    | none => draw_bind_alloc extensions c name location sampler texture

/-- The loop of `bind_textures` from `frame_buffer.rs` over the sampler
attributes `(name, sampler state, texture)`. -/
def draw_bind_texture_list (extensions : Extensions) (c : BindTexturesCtx) :
    List (String × SamplerState × ℕ) → Option BindTexturesCtx
  | [] => some c
  | (name, sampler, texture) :: rest =>
    match draw_bind_texture extensions c name sampler texture with
    | some c' => draw_bind_texture_list extensions c' rest
    | none => none

/-- `bind_textures` from `frame_buffer.rs`: fresh `used_units` bit array and
`no_free_units` flag for each draw call. -/
def draw_bind_textures (extensions : Extensions) (state : GlesState)
    (shader : ShaderState) (textures : List (String × SamplerState × ℕ)) :
    Option BindTexturesCtx :=
  draw_bind_texture_list extensions
    ⟨state, List.replicate MAX_TEXTURES false, shader, false, []⟩ textures

/-- C2 counterexample: two texture units, sampler objects supported, and three
sampler attributes referencing only two distinct textures — texture 1 under
two different samplers plus texture 2.  The first two bindings claim both
units (the same texture legitimately occupies two units when bound with two
samplers), so the third panics ("Trying to bind more textures than there
are slots") even though the draw call references at most N = 2 distinct
textures. -/
theorem c2_texture_binding_counterexample :
    (draw_bind_textures ⟨false, true, false⟩ (GlesState.initial 2)
      ⟨[("n1", 10, 0), ("n2", 11, 0), ("n3", 12, 0)],
        [(10, 0), (11, 0), (12, 0)]⟩
      [("n1", SamplerState.initial, 1),
       ("n2", ⟨.Clamp, .Origin .Linear, .Linear⟩, 1),
       ("n3", SamplerState.initial, 2)]).isNone = true
    ∧ ([1, 1, 2] : List ℕ).dedup.length = 2
    ∧ (GlesState.initial 2).texture_unit_limit = 2 :=
  ⟨by decide, by decide, by decide⟩

/-! ## Claim C2 machinery: well-formedness and allocation bookkeeping -/

/-- The number of texture units claimed by the current draw call. -/
def usedCount (used : List Bool) (limit : ℕ) : ℕ :=
  ((List.range limit).filter (fun i => used.getD i false)).length

/-- The binding postcondition of one sampler attribute: its texture sits in a
unit below the limit, that unit is claimed by this draw call, and the
shader's cached unit and sampler uniform for the attribute's name both
point at that unit. -/
def BindP (c : BindTexturesCtx) (attr : String × SamplerState × ℕ) : Prop :=
  ∃ u loc, u < c.state.texture_unit_limit
    ∧ (c.state.texture_units.getD u TextureUnit.initial).texture = some attr.2.2
    ∧ c.used_units.getD u false = true
    ∧ c.shader.sampler_attributes.lookup attr.1 = some (loc, u)
    ∧ c.shader.sampler_uniforms.lookup loc = some (Int.ofNat u)

/-- Well-formedness of the binding context: the mirror arrays have their
`MAX_TEXTURES` size, every cached unit is below the unit limit, each
sampler uniform holds its cached unit (GL initializes them to 0, matching
the fresh caches; they are updated together), and the shader's sampler
names and locations are distinct (`HashMap` keys / GL locations). -/
def BindWf (c : BindTexturesCtx) : Prop :=
  c.state.texture_units.length = MAX_TEXTURES
  ∧ c.state.texture_unit_limit ≤ MAX_TEXTURES
  ∧ c.used_units.length = MAX_TEXTURES
  ∧ (∀ p ∈ c.shader.sampler_attributes, p.2.2 < c.state.texture_unit_limit)
  ∧ (∀ p ∈ c.shader.sampler_attributes,
      c.shader.sampler_uniforms.lookup p.2.1 = some (Int.ofNat p.2.2))
  ∧ (c.shader.sampler_attributes.map (fun p => p.1)).Nodup
  ∧ (c.shader.sampler_attributes.map (fun p => p.2.1)).Nodup

theorem mem_of_lookup {α β : Type} [DecidableEq α] :
    ∀ (l : List (α × β)) (k : α) (v : β), l.lookup k = some v → (k, v) ∈ l := by
  intro l
  induction l with
  | nil => intro k v h; simp [List.lookup] at h
  | cons a t ih =>
    obtain ⟨ak, av⟩ := a
    intro k v h
    by_cases hk : k = ak
    · simp only [List.lookup_cons, beq_iff_eq.mpr hk] at h
      have := Option.some.inj h
      simp [hk, ← this]
    · simp only [List.lookup_cons, beq_false_of_ne hk] at h
      exact List.mem_cons_of_mem _ (ih k v h)

theorem lookup_filter_ne {α β : Type} [DecidableEq α] (k k' : α) (hne : k' ≠ k) :
    ∀ l : List (α × β), (l.filter (fun p => p.1 != k)).lookup k' = l.lookup k' := by
  intro l
  induction l with
  | nil => rfl
  | cons a t ih =>
    obtain ⟨ak, av⟩ := a
    by_cases ha : ak = k
    · rw [List.filter_cons_of_neg (by simpa using ha), ih]
      simp [List.lookup_cons, beq_false_of_ne (ha ▸ hne)]
    · rw [List.filter_cons_of_pos (by simpa using ha)]
      by_cases hk : k' = ak
      · simp [List.lookup_cons, beq_iff_eq.mpr hk]
      · simp only [List.lookup_cons, beq_false_of_ne hk]
        exact ih

theorem lookup_assocPut {α β : Type} [DecidableEq α] (l : List (α × β))
    (k k' : α) (v : β) :
    (assocPut l k v).lookup k' = if k' = k then some v else l.lookup k' := by
  by_cases h : k' = k
  · rw [if_pos h, assocPut]
    simp [List.lookup_cons, beq_iff_eq.mpr h]
  · rw [if_neg h, assocPut]
    simp only [List.lookup_cons, beq_false_of_ne h]
    exact lookup_filter_ne k k' h l

theorem lookup_setCachedUnit_ne' (name : String) (unit : ℕ)
    (name' : String) (hne : name' ≠ name) :
    ∀ l : List (String × ℕ × ℕ),
      (setCachedUnitList l name unit).lookup name' = l.lookup name' := by
  intro l
  induction l with
  | nil => rfl
  | cons a t ih =>
    obtain ⟨ak, al, au⟩ := a
    rw [setCachedUnitList] at ih ⊢
    by_cases ha : ak = name
    · subst ha
      simp [List.lookup_cons, beq_false_of_ne hne, ih]
    · by_cases hk : name' = ak
      · simp [List.lookup_cons, ha, beq_iff_eq.mpr hk]
      · simp [List.lookup_cons, ha, beq_false_of_ne hk, ih]

theorem lookup_setCachedUnit_ne (ss : ShaderState) (name : String) (unit : ℕ)
    (name' : String) (hne : name' ≠ name) :
    (ss.setCachedUnit name unit).sampler_attributes.lookup name'
      = ss.sampler_attributes.lookup name' :=
  lookup_setCachedUnit_ne' name unit name' hne ss.sampler_attributes

theorem lookup_setCachedUnit_self' (name : String) (unit loc cu : ℕ) :
    ∀ l : List (String × ℕ × ℕ), l.lookup name = some (loc, cu) →
      (setCachedUnitList l name unit).lookup name = some (loc, unit) := by
  intro l
  induction l with
  | nil => intro h; simp [List.lookup] at h
  | cons a t ih =>
    obtain ⟨ak, al, au⟩ := a
    intro h
    rw [setCachedUnitList] at ih ⊢
    by_cases hk : name = ak
    · subst hk
      simp only [List.lookup_cons, beq_self_eq_true] at h
      have hv := Option.some.inj h
      have hal : al = loc := congrArg Prod.fst hv
      simp [List.lookup_cons, hal]
    · have ha : ¬ak = name := fun hx => hk hx.symm
      simp only [List.lookup_cons, beq_false_of_ne hk] at h
      simp [List.lookup_cons, ha, beq_false_of_ne hk, ih h]

theorem lookup_setCachedUnit_self (ss : ShaderState) (name : String) (unit : ℕ)
    (loc cu : ℕ) (h : ss.sampler_attributes.lookup name = some (loc, cu)) :
    (ss.setCachedUnit name unit).sampler_attributes.lookup name
      = some (loc, unit) :=
  lookup_setCachedUnit_self' name unit loc cu ss.sampler_attributes h

theorem setCachedUnit_names (ss : ShaderState) (name : String) (unit : ℕ) :
    (ss.setCachedUnit name unit).sampler_attributes.map (fun p => p.1)
      = ss.sampler_attributes.map (fun p => p.1) := by
  show (setCachedUnitList ss.sampler_attributes name unit).map (fun p => p.1) = _
  rw [setCachedUnitList]
  induction ss.sampler_attributes with
  | nil => rfl
  | cons a t ih =>
    by_cases ha : a.1 = name <;> simp [ha, ih]

theorem setCachedUnit_locations (ss : ShaderState) (name : String) (unit : ℕ) :
    (ss.setCachedUnit name unit).sampler_attributes.map (fun p => p.2.1)
      = ss.sampler_attributes.map (fun p => p.2.1) := by
  show (setCachedUnitList ss.sampler_attributes name unit).map (fun p => p.2.1) = _
  rw [setCachedUnitList]
  induction ss.sampler_attributes with
  | nil => rfl
  | cons a t ih =>
    by_cases ha : a.1 = name <;> simp [ha, ih]

theorem mem_setCachedUnit {ss : ShaderState} {name : String} {unit : ℕ} {p} :
    p ∈ (ss.setCachedUnit name unit).sampler_attributes →
    ∃ q ∈ ss.sampler_attributes,
      p = if q.1 = name then (q.1, q.2.1, unit) else q := by
  intro hp
  rw [ShaderState.setCachedUnit, setCachedUnitList] at hp
  simp only [List.mem_map] at hp
  obtain ⟨q, hq, hpq⟩ := hp
  exact ⟨q, hq, hpq.symm⟩

theorem listGetDSet {α : Type} :
    ∀ (l : List α) (i j : ℕ) (a d : α),
      (l.set i a).getD j d
        = if i = j ∧ i < l.length then a else l.getD j d := by
  intro l
  induction l with
  | nil => intro i j a d; simp
  | cons x xs ih =>
    intro i j a d
    cases i with
    | zero =>
      cases j with
      | zero => simp [List.getD]
      | succ m => simp [List.getD]
    | succ n =>
      cases j with
      | zero => simp [List.getD]
      | succ m =>
        simp only [List.set, List.getD_cons_succ, List.length_cons, ih]
        by_cases hij : n = m <;> simp [hij, Nat.succ_lt_succ_iff]

theorem usedCount_le (used : List Bool) (limit : ℕ) :
    usedCount used limit ≤ limit := by
  rw [usedCount]
  calc ((List.range limit).filter (fun i => used.getD i false)).length
      ≤ (List.range limit).length := List.length_filter_le _ _
    _ = limit := List.length_range limit

theorem filter_length_mono {p p' : ℕ → Bool} :
    ∀ l : List ℕ, (∀ i ∈ l, p' i = true → p i = true) →
      (l.filter p').length ≤ (l.filter p).length := by
  intro l
  induction l with
  | nil => intro _; simp
  | cons a t ih =>
    intro h
    by_cases ha : p' a = true
    · rw [List.filter_cons_of_pos ha, List.filter_cons_of_pos (h a (by simp) ha)]
      simpa using ih (fun i hi => h i (by simp [hi]))
    · rw [List.filter_cons_of_neg (by simpa using ha)]
      calc (t.filter p').length ≤ (t.filter p).length :=
            ih (fun i hi => h i (by simp [hi]))
        _ ≤ ((a :: t).filter p).length := by
            by_cases hpa : p a = true
            · rw [List.filter_cons_of_pos hpa]; simp
            · rw [List.filter_cons_of_neg (by simpa using hpa)]

theorem filter_length_le_succ {p p' : ℕ → Bool} (j : ℕ) :
    ∀ l : List ℕ, l.Nodup → (∀ i ∈ l, p' i = true → p i = true ∨ i = j) →
      (l.filter p').length ≤ (l.filter p).length + 1 := by
  intro l
  induction l with
  | nil => intro _ _; simp
  | cons a t ih =>
    intro hnd h
    have hndt : t.Nodup := (List.nodup_cons.mp hnd).2
    have hat : a ∉ t := (List.nodup_cons.mp hnd).1
    by_cases haj : a = j
    · -- the budget element: on the tail the implication is unconditional
      have htail : ∀ i ∈ t, p' i = true → p i = true := by
        intro i hi hpi
        rcases h i (by simp [hi]) hpi with hp | hij
        · exact hp
        · exact absurd (hij ▸ hi) (haj ▸ hat)
      have hm := filter_length_mono t htail
      by_cases ha : p' a = true
      · rw [List.filter_cons_of_pos ha]
        have : ((a :: t).filter p).length ≥ (t.filter p).length := by
          by_cases hpa : p a = true
          · rw [List.filter_cons_of_pos hpa]; simp
          · rw [List.filter_cons_of_neg (by simpa using hpa)]
        simp only [List.length_cons]
        omega
      · rw [List.filter_cons_of_neg (by simpa using ha)]
        have : ((a :: t).filter p).length ≥ (t.filter p).length := by
          by_cases hpa : p a = true
          · rw [List.filter_cons_of_pos hpa]; simp
          · rw [List.filter_cons_of_neg (by simpa using hpa)]
        omega
    · have ht := ih hndt (fun i hi => h i (by simp [hi]))
      by_cases ha : p' a = true
      · have hpa : p a = true := by
          rcases h a (by simp) ha with hp | hj
          · exact hp
          · exact absurd hj haj
        rw [List.filter_cons_of_pos ha, List.filter_cons_of_pos hpa]
        simpa using ht
      · rw [List.filter_cons_of_neg (by simpa using ha)]
        have : ((a :: t).filter p).length ≥ (t.filter p).length := by
          by_cases hpa : p a = true
          · rw [List.filter_cons_of_pos hpa]; simp
          · rw [List.filter_cons_of_neg (by simpa using hpa)]
        omega

theorem usedCount_set_le (used : List Bool) (limit j : ℕ) :
    usedCount (used.set j true) limit ≤ usedCount used limit + 1 := by
  rw [usedCount, usedCount]
  apply filter_length_le_succ j _ (List.nodup_range limit)
  intro i _ hpi
  rw [listGetDSet used j i true false] at hpi
  by_cases hij : j = i ∧ j < used.length
  · right; exact hij.1.symm
  · left; rwa [if_neg hij] at hpi

theorem used_set_mono (used : List Bool) (j i : ℕ)
    (h : used.getD i false = true) : (used.set j true).getD i false = true := by
  rw [listGetDSet used j i true false]
  by_cases hij : j = i ∧ j < used.length
  · rw [if_pos hij]
  · rwa [if_neg hij]

theorem second_scan_some (used : List Bool) (limit : ℕ)
    (h : usedCount used limit < limit) :
    ∃ u, (List.range limit).find? (fun i => !(used.getD i false)) = some u := by
  cases hf : (List.range limit).find? (fun i => !(used.getD i false)) with
  | some u => exact ⟨u, rfl⟩
  | none =>
    exfalso
    have hall := List.find?_eq_none.mp hf
    have : ∀ i ∈ List.range limit, used.getD i false = true := by
      intro i hi
      have := hall i hi
      simpa using this
    have heq : (List.range limit).filter (fun i => used.getD i false)
        = List.range limit := List.filter_eq_self.mpr this
    rw [usedCount, heq, List.length_range] at h
    omega

theorem find_range_spec {p : ℕ → Bool} {limit u : ℕ}
    (h : (List.range limit).find? p = some u) : u < limit ∧ p u = true :=
  ⟨List.mem_range.mp (List.mem_of_find?_eq_some h), List.find?_some h⟩

theorem get_sampler_object_preserves (s : GlesState) (st : SamplerState) :
    (get_sampler_object s st).1.texture_units = s.texture_units
    ∧ (get_sampler_object s st).1.texture_unit_limit = s.texture_unit_limit := by
  rw [get_sampler_object]
  cases s.samplers.real_cache.lookup st <;> simp

theorem activate_texture_unit_preserves (s : GlesState) (u : ℕ) :
    (activate_texture_unit s u).1.texture_units = s.texture_units
    ∧ (activate_texture_unit s u).1.texture_unit_limit = s.texture_unit_limit := by
  by_cases h : s.active_texture_unit = u <;> simp [activate_texture_unit, h]

theorem set_sampler_texture (l : List TextureUnit) (j : ℕ) (st' : SamplerState)
    (i : ℕ) :
    ((l.set j { l.getD j TextureUnit.initial with sampler := st' }).getD i
        TextureUnit.initial).texture
      = (l.getD i TextureUnit.initial).texture := by
  rw [listGetDSet]
  by_cases hc : j = i ∧ j < l.length
  · rw [if_pos hc, hc.1]
  · rw [if_neg hc]

theorem bind_sampler_preserves (ext : Extensions) (s : GlesState) (unit : ℕ)
    (st : SamplerState) :
    (bind_sampler ext s unit st).1.texture_unit_limit = s.texture_unit_limit
    ∧ (bind_sampler ext s unit st).1.texture_units.length = s.texture_units.length
    ∧ (∀ i, ((bind_sampler ext s unit st).1.texture_units.getD i
          TextureUnit.initial).texture
        = (s.texture_units.getD i TextureUnit.initial).texture) := by
  rw [bind_sampler]
  by_cases hso : ext.sampler_objects
  · rw [if_pos hso, bind_sampler_object]
    by_cases heq : (s.texture_units.getD unit TextureUnit.initial).sampler = st
    · rw [if_pos heq]
      exact ⟨rfl, rfl, fun i => rfl⟩
    · rw [if_neg heq]
      refine ⟨?_, ?_, ?_⟩
      · simp [(get_sampler_object_preserves s st).2]
      · simp [(get_sampler_object_preserves s st).1]
      · intro i
        simp only [(get_sampler_object_preserves s st).1]
        exact set_sampler_texture s.texture_units unit st i
  · rw [if_neg hso, bind_sampling_data]
    cases ht : (s.texture_units.getD unit TextureUnit.initial).texture with
    | none => simp [ht]
    | some texture =>
      simp only [ht]
      by_cases hfb : s.samplers.fallback_cache.lookup texture = some st
      · simp [hfb]
      · rw [if_neg hfb]
        refine ⟨?_, ?_, ?_⟩
        · simp [(activate_texture_unit_preserves s unit).2]
        · simp [(activate_texture_unit_preserves s unit).1]
        · intro i
          simp only [(activate_texture_unit_preserves s unit).1]
          exact set_sampler_texture s.texture_units unit st i

theorem lookup_isSome_iff {α β : Type} [DecidableEq α] (k : α) :
    ∀ l : List (α × β), (l.lookup k).isSome ↔ k ∈ l.map Prod.fst := by
  intro l
  induction l with
  | nil => simp [List.lookup]
  | cons a t ih =>
    obtain ⟨ak, av⟩ := a
    by_cases hk : k = ak
    · simp [List.lookup_cons, beq_iff_eq.mpr hk, hk]
    · simp only [List.lookup_cons, beq_false_of_ne hk, List.map_cons,
        List.mem_cons]
      rw [ih]
      simp [hk]

theorem lookup_of_mem_nodup {α β : Type} [DecidableEq α] :
    ∀ l : List (α × β), (l.map Prod.fst).Nodup → ∀ p ∈ l,
      l.lookup p.1 = some p.2 := by
  intro l
  induction l with
  | nil => intro _ p hp; simp at hp
  | cons a t ih =>
    obtain ⟨ak, av⟩ := a
    intro hnd p hp
    rw [List.map_cons] at hnd
    have hnd' := List.nodup_cons.mp hnd
    rcases List.mem_cons.mp hp with rfl | hpt
    · simp [List.lookup_cons]
    · have hne : p.1 ≠ ak := by
        intro hx
        have hmm : p.1 ∈ t.map Prod.fst := List.mem_map_of_mem Prod.fst hpt
        exact hnd'.1 (hx ▸ hmm)
      simp only [List.lookup_cons, beq_false_of_ne hne]
      exact ih hnd'.2 p hpt

theorem lookup_loc_ne (l : List (String × ℕ × ℕ))
    (hlocs : (l.map (fun p => p.2.1)).Nodup)
    (k k' : String) (hkk : k ≠ k') (v v' : ℕ × ℕ)
    (h : l.lookup k = some v) (h' : l.lookup k' = some v') : v.1 ≠ v'.1 := by
  intro heq
  have hm := mem_of_lookup l k v h
  have hm' := mem_of_lookup l k' v' h'
  have := List.inj_on_of_nodup_map hlocs hm hm' (by simpa using heq)
  exact hkk (congrArg Prod.fst this)

theorem getD_replicate_false (n i : ℕ) :
    (List.replicate n false).getD i false = false := by
  rw [List.getD, List.get?_eq_getElem?, List.getElem?_replicate]
  split <;> rfl

theorem usedCount_replicate_false (limit : ℕ) :
    usedCount (List.replicate MAX_TEXTURES false) limit = 0 := by
  rw [usedCount, List.length_eq_zero]
  rw [List.filter_eq_nil_iff]
  intro i _
  simp [getD_replicate_false]

theorem draw_bind_check_spec (ext : Extensions) (c : BindTexturesCtx)
    (name : String) (loc cached : ℕ) (sampler : SamplerState) (texture : ℕ)
    (c' : BindTexturesCtx) (hwf : BindWf c)
    (hlu : c.shader.sampler_attributes.lookup name = some (loc, cached))
    (h : draw_bind_check ext c cached sampler texture = some c') :
    BindWf c'
    ∧ c'.state.texture_unit_limit = c.state.texture_unit_limit
    ∧ c'.shader = c.shader
    ∧ usedCount c'.used_units c.state.texture_unit_limit
        ≤ usedCount c.used_units c.state.texture_unit_limit + 1
    ∧ BindP c' (name, sampler, texture)
    ∧ (∀ q : String × SamplerState × ℕ, BindP c q → BindP c' q) := by
  obtain ⟨hlen, hlim, hulen, hcached, huni, hnames, hlocs⟩ := hwf
  have hmem := mem_of_lookup _ _ _ hlu
  have hclt : cached < c.state.texture_unit_limit := hcached _ hmem
  have hc32 : cached < c.used_units.length := by rw [hulen]; omega
  simp only [draw_bind_check] at h
  by_cases ht : (c.state.texture_units.getD cached TextureUnit.initial).texture
      = some texture
  swap
  · rw [if_neg ht] at h
    exact absurd h (by simp)
  rw [if_pos ht] at h
  by_cases hs : (c.state.texture_units.getD cached TextureUnit.initial).sampler
      = sampler
  · rw [if_pos hs] at h
    have hc' := Option.some.inj h
    subst hc'
    refine ⟨⟨hlen, hlim, by simpa using hulen, hcached, huni, hnames, hlocs⟩,
      rfl, rfl, usedCount_set_le _ _ _, ?_, ?_⟩
    · exact ⟨cached, loc, hclt, ht, listGetDSetSelf _ _ _ _ hc32, hlu,
        huni _ hmem⟩
    · rintro q ⟨u, loc', h1, h2, h3, h4, h5⟩
      exact ⟨u, loc', h1, h2, used_set_mono _ _ _ h3, h4, h5⟩
  · rw [if_neg hs] at h
    by_cases hcr : (!ext.sampler_objects || !(c.used_units.getD cached false))
        = true
    swap
    · rw [if_neg (by simpa using hcr)] at h
      exact absurd h (by simp)
    rw [if_pos (by simpa using hcr)] at h
    have hc' := Option.some.inj h
    subst hc'
    have hbs := bind_sampler_preserves ext c.state cached sampler
    refine ⟨⟨by rw [hbs.2.1]; exact hlen, by rw [hbs.1]; exact hlim,
      by simpa using hulen, by rw [hbs.1]; exact hcached, huni, hnames, hlocs⟩,
      hbs.1, rfl, usedCount_set_le _ _ _, ?_, ?_⟩
    · refine ⟨cached, loc, by rw [hbs.1]; exact hclt, ?_,
        listGetDSetSelf _ _ _ _ hc32, hlu, huni _ hmem⟩
      rw [hbs.2.2 cached]
      exact ht
    · rintro q ⟨u, loc', h1, h2, h3, h4, h5⟩
      refine ⟨u, loc', by rw [hbs.1]; exact h1, ?_,
        used_set_mono _ _ _ h3, h4, h5⟩
      rw [hbs.2.2 u]
      exact h2

theorem draw_bind_alloc_at_used (ext : Extensions) (c : BindTexturesCtx)
    (name : String) (loc : ℕ) (sampler : SamplerState) (texture u0 : ℕ)
    (nf : Bool) :
    (draw_bind_alloc_at ext c name loc sampler texture u0 nf).used_units
      = c.used_units.set u0 true := rfl

theorem draw_bind_alloc_at_shader (ext : Extensions) (c : BindTexturesCtx)
    (name : String) (loc : ℕ) (sampler : SamplerState) (texture u0 : ℕ)
    (nf : Bool) :
    (draw_bind_alloc_at ext c name loc sampler texture u0 nf).shader
      = (c.shader.setCachedUnit name u0).setUniform loc (Int.ofNat u0) := rfl

theorem draw_bind_alloc_at_state (ext : Extensions) (c : BindTexturesCtx)
    (name : String) (loc : ℕ) (sampler : SamplerState) (texture u0 : ℕ)
    (nf : Bool) :
    (draw_bind_alloc_at ext c name loc sampler texture u0 nf).state
      = (bind_sampler ext (alloc_mid c texture u0) u0 sampler).1 := rfl

theorem alloc_mid_limit (c : BindTexturesCtx) (texture u0 : ℕ) :
    (alloc_mid c texture u0).texture_unit_limit = c.state.texture_unit_limit := by
  simp only [alloc_mid]
  exact (activate_texture_unit_preserves c.state u0).2

theorem alloc_mid_units (c : BindTexturesCtx) (texture u0 : ℕ) :
    (alloc_mid c texture u0).texture_units
      = c.state.texture_units.set u0
          { c.state.texture_units.getD u0 TextureUnit.initial with
            texture := some texture } := by
  simp only [alloc_mid]
  rw [(activate_texture_unit_preserves c.state u0).1]

theorem draw_bind_alloc_at_limit (ext : Extensions) (c : BindTexturesCtx)
    (name : String) (loc : ℕ) (sampler : SamplerState) (texture u0 : ℕ)
    (nf : Bool) :
    (draw_bind_alloc_at ext c name loc sampler texture u0 nf).state.texture_unit_limit
      = c.state.texture_unit_limit := by
  rw [draw_bind_alloc_at_state,
    (bind_sampler_preserves ext (alloc_mid c texture u0) u0 sampler).1,
    alloc_mid_limit]

theorem draw_bind_alloc_at_len (ext : Extensions) (c : BindTexturesCtx)
    (name : String) (loc : ℕ) (sampler : SamplerState) (texture u0 : ℕ)
    (nf : Bool) :
    (draw_bind_alloc_at ext c name loc sampler texture u0 nf).state.texture_units.length
      = c.state.texture_units.length := by
  rw [draw_bind_alloc_at_state,
    (bind_sampler_preserves ext (alloc_mid c texture u0) u0 sampler).2.1,
    alloc_mid_units, List.length_set]

theorem draw_bind_alloc_at_texture (ext : Extensions) (c : BindTexturesCtx)
    (name : String) (loc : ℕ) (sampler : SamplerState) (texture u0 : ℕ)
    (nf : Bool) (i : ℕ) :
    ((draw_bind_alloc_at ext c name loc sampler texture u0 nf).state.texture_units.getD
        i TextureUnit.initial).texture
      = if u0 = i ∧ u0 < c.state.texture_units.length then some texture
        else (c.state.texture_units.getD i TextureUnit.initial).texture := by
  rw [draw_bind_alloc_at_state,
    (bind_sampler_preserves ext (alloc_mid c texture u0) u0 sampler).2.2 i,
    alloc_mid_units, listGetDSet]
  by_cases hc : u0 = i ∧ u0 < c.state.texture_units.length
  · rw [if_pos hc, if_pos hc]
  · rw [if_neg hc, if_neg hc]

theorem draw_bind_alloc_at_spec (ext : Extensions) (c : BindTexturesCtx)
    (name : String) (loc cached : ℕ) (sampler : SamplerState) (texture : ℕ)
    (u0 : ℕ) (nf : Bool) (hwf : BindWf c)
    (hlu : c.shader.sampler_attributes.lookup name = some (loc, cached))
    (hu : u0 < c.state.texture_unit_limit)
    (hfree : (c.state.texture_units.getD u0 TextureUnit.initial).texture = none
      ∨ c.used_units.getD u0 false = false) :
    BindWf (draw_bind_alloc_at ext c name loc sampler texture u0 nf)
    ∧ (draw_bind_alloc_at ext c name loc sampler texture u0 nf).state.texture_unit_limit
        = c.state.texture_unit_limit
    ∧ (draw_bind_alloc_at ext c name loc sampler texture u0 nf).shader.sampler_attributes.map
          (fun p => p.1)
        = c.shader.sampler_attributes.map (fun p => p.1)
    ∧ usedCount (draw_bind_alloc_at ext c name loc sampler texture u0 nf).used_units
          c.state.texture_unit_limit
        ≤ usedCount c.used_units c.state.texture_unit_limit + 1
    ∧ BindP (draw_bind_alloc_at ext c name loc sampler texture u0 nf)
        (name, sampler, texture)
    ∧ (∀ q : String × SamplerState × ℕ, q.1 ≠ name → BindP c q →
        BindP (draw_bind_alloc_at ext c name loc sampler texture u0 nf) q) := by
  obtain ⟨hlen, hlim, hulen, hcached, huni, hnames, hlocs⟩ := hwf
  have hu32 : u0 < c.used_units.length := by rw [hulen]; omega
  have hulen' : u0 < c.state.texture_units.length := by rw [hlen]; omega
  have hA := draw_bind_alloc_at_used ext c name loc sampler texture u0 nf
  have hS := draw_bind_alloc_at_shader ext c name loc sampler texture u0 nf
  have hL := draw_bind_alloc_at_limit ext c name loc sampler texture u0 nf
  have hN := draw_bind_alloc_at_len ext c name loc sampler texture u0 nf
  have hT := draw_bind_alloc_at_texture ext c name loc sampler texture u0 nf
  have hSA : (draw_bind_alloc_at ext c name loc sampler texture u0 nf).shader.sampler_attributes
      = (c.shader.setCachedUnit name u0).sampler_attributes := by rw [hS]; rfl
  have hSU : (draw_bind_alloc_at ext c name loc sampler texture u0 nf).shader.sampler_uniforms
      = assocPut c.shader.sampler_uniforms loc (Int.ofNat u0) := by rw [hS]; rfl
  refine ⟨⟨?_, ?_, ?_, ?_, ?_, ?_, ?_⟩, hL, ?_, ?_, ?_, ?_⟩
  · rw [hN]; exact hlen
  · rw [hL]; exact hlim
  · rw [hA, List.length_set]; exact hulen
  · intro p hp
    rw [hSA] at hp
    rw [hL]
    rcases mem_setCachedUnit hp with ⟨q, hq, hpq⟩
    by_cases hqn : q.1 = name
    · rw [if_pos hqn] at hpq
      subst hpq
      exact hu
    · rw [if_neg hqn] at hpq
      rw [hpq]
      exact hcached q hq
  · intro p hp
    rw [hSA] at hp
    rw [hSU, lookup_assocPut]
    rcases mem_setCachedUnit hp with ⟨q, hq, hpq⟩
    have hlq := lookup_of_mem_nodup _ hnames q hq
    by_cases hqn : q.1 = name
    · rw [if_pos hqn] at hpq
      rw [hqn, hlu] at hlq
      have hq2 : q.2 = (loc, cached) := (Option.some.inj hlq).symm
      have hq21 : q.2.1 = loc := congrArg Prod.fst hq2
      subst hpq
      rw [if_pos hq21]
    · rw [if_neg hqn] at hpq
      rw [hpq]
      have hne := lookup_loc_ne c.shader.sampler_attributes hlocs q.1 name hqn
        q.2 (loc, cached) hlq hlu
      rw [if_neg hne]
      exact huni q hq
  · rw [hSA, setCachedUnit_names]; exact hnames
  · rw [hSA, setCachedUnit_locations]; exact hlocs
  · rw [hSA, setCachedUnit_names]
  · rw [hA]; exact usedCount_set_le _ _ _
  · refine ⟨u0, loc, ?_, ?_, ?_, ?_, ?_⟩
    · rw [hL]; exact hu
    · rw [hT u0, if_pos ⟨rfl, hulen'⟩]
    · rw [hA]; exact listGetDSetSelf _ _ _ _ hu32
    · rw [hSA]; exact lookup_setCachedUnit_self c.shader name u0 loc cached hlu
    · rw [hSU, lookup_assocPut, if_pos rfl]
  · rintro q hqname ⟨u, loc', h1, h2, h3, h4, h5⟩
    have hvne : u0 ≠ u := by
      intro hx
      subst hx
      rcases hfree with hf | hf
      · rw [h2] at hf; exact Option.noConfusion hf
      · rw [h3] at hf; exact Bool.noConfusion hf
    refine ⟨u, loc', ?_, ?_, ?_, ?_, ?_⟩
    · rw [hL]; exact h1
    · rw [hT u, if_neg (fun hc => hvne hc.1)]; exact h2
    · rw [hA]; exact used_set_mono _ _ _ h3
    · rw [hSA, lookup_setCachedUnit_ne c.shader name u0 q.1 hqname]; exact h4
    · rw [hSU, lookup_assocPut]
      have hne := lookup_loc_ne c.shader.sampler_attributes hlocs q.1 name hqname
        (loc', u) (loc, cached) h4 hlu
      rw [if_neg hne]
      exact h5

theorem free_scan_fn_spec (c : BindTexturesCtx) (u : ℕ)
    (h : free_scan_fn c = some u) :
    u < c.state.texture_unit_limit
    ∧ (c.state.texture_units.getD u TextureUnit.initial).texture = none := by
  rw [free_scan_fn] at h
  by_cases hnf : c.no_free_units = true
  · rw [if_pos hnf] at h
    exact absurd h (by simp)
  · rw [if_neg hnf] at h
    have hfr := find_range_spec h
    exact ⟨hfr.1, of_decide_eq_true hfr.2⟩

theorem second_scan_fn_some (c : BindTexturesCtx)
    (h : usedCount c.used_units c.state.texture_unit_limit
      < c.state.texture_unit_limit) :
    ∃ u, second_scan_fn c = some u := by
  rw [second_scan_fn]
  exact second_scan_some c.used_units c.state.texture_unit_limit h

theorem second_scan_fn_spec (c : BindTexturesCtx) (u : ℕ)
    (h : second_scan_fn c = some u) :
    u < c.state.texture_unit_limit ∧ c.used_units.getD u false = false := by
  rw [second_scan_fn] at h
  have hfr := find_range_spec h
  exact ⟨hfr.1, by simpa using hfr.2⟩

theorem draw_bind_alloc_eq (ext : Extensions) (c : BindTexturesCtx)
    (name : String) (loc : ℕ) (sampler : SamplerState) (texture : ℕ) :
    draw_bind_alloc ext c name loc sampler texture
      = match free_scan_fn c with
        | some u => some (draw_bind_alloc_at ext c name loc sampler texture u
            (if c.no_free_units then true else false))
        | none =>
          match second_scan_fn c with
          | some u => some (draw_bind_alloc_at ext c name loc sampler texture u
              true)
          | none => none := by
  rw [draw_bind_alloc]
  cases hfs : free_scan_fn c with
  | some u =>
    by_cases hnf : c.no_free_units = true
    · simp [hfs, hnf]
    · simp [hfs, hnf]
  | none =>
    by_cases hnf : c.no_free_units = true
    · simp only [hfs, Option.isNone_none]
      cases hss : second_scan_fn c with
      | some u => simp [hnf]
      | none => simp
    · simp only [hfs, Option.isNone_none]
      cases hss : second_scan_fn c with
      | some u => simp [hnf]
      | none => simp

theorem draw_bind_alloc_spec (ext : Extensions) (c : BindTexturesCtx)
    (name : String) (loc cached : ℕ) (sampler : SamplerState) (texture : ℕ)
    (hwf : BindWf c)
    (hlu : c.shader.sampler_attributes.lookup name = some (loc, cached))
    (hbudget : usedCount c.used_units c.state.texture_unit_limit
      < c.state.texture_unit_limit) :
    ∃ c', draw_bind_alloc ext c name loc sampler texture = some c'
      ∧ BindWf c'
      ∧ c'.state.texture_unit_limit = c.state.texture_unit_limit
      ∧ c'.shader.sampler_attributes.map (fun p => p.1)
          = c.shader.sampler_attributes.map (fun p => p.1)
      ∧ usedCount c'.used_units c.state.texture_unit_limit
          ≤ usedCount c.used_units c.state.texture_unit_limit + 1
      ∧ BindP c' (name, sampler, texture)
      ∧ (∀ q : String × SamplerState × ℕ, q.1 ≠ name → BindP c q →
          BindP c' q) := by
  rw [draw_bind_alloc_eq]
  cases hfs : free_scan_fn c with
  | some u =>
    have hfr := free_scan_fn_spec c u hfs
    exact ⟨_, rfl, draw_bind_alloc_at_spec ext c name loc cached sampler texture
      u _ ⟨hwf.1, hwf.2.1, hwf.2.2.1, hwf.2.2.2.1, hwf.2.2.2.2.1,
        hwf.2.2.2.2.2.1, hwf.2.2.2.2.2.2⟩ hlu hfr.1 (Or.inl hfr.2)⟩
  | none =>
    obtain ⟨u, hss⟩ := second_scan_fn_some c hbudget
    rw [hss]
    have hfr := second_scan_fn_spec c u hss
    exact ⟨_, rfl, draw_bind_alloc_at_spec ext c name loc cached sampler texture
      u true ⟨hwf.1, hwf.2.1, hwf.2.2.1, hwf.2.2.2.1, hwf.2.2.2.2.1,
        hwf.2.2.2.2.2.1, hwf.2.2.2.2.2.2⟩ hlu hfr.1 (Or.inr hfr.2)⟩

theorem draw_bind_texture_step (ext : Extensions) (c : BindTexturesCtx)
    (name : String) (sampler : SamplerState) (texture : ℕ)
    (hwf : BindWf c)
    (hbudget : usedCount c.used_units c.state.texture_unit_limit
      < c.state.texture_unit_limit)
    (hname : (c.shader.sampler_attributes.lookup name).isSome = true) :
    ∃ c', draw_bind_texture ext c name sampler texture = some c'
      ∧ BindWf c'
      ∧ c'.state.texture_unit_limit = c.state.texture_unit_limit
      ∧ c'.shader.sampler_attributes.map (fun p => p.1)
          = c.shader.sampler_attributes.map (fun p => p.1)
      ∧ usedCount c'.used_units c.state.texture_unit_limit
          ≤ usedCount c.used_units c.state.texture_unit_limit + 1
      ∧ BindP c' (name, sampler, texture)
      ∧ (∀ q : String × SamplerState × ℕ, q.1 ≠ name → BindP c q →
          BindP c' q) := by
  cases hlu : c.shader.sampler_attributes.lookup name with
  | none => rw [hlu] at hname; exact absurd hname (by simp)
  | some lc =>
    obtain ⟨loc, cached⟩ := lc
    cases hchk : draw_bind_check ext c cached sampler texture with
    | some c1 =>
      have hspec := draw_bind_check_spec ext c name loc cached sampler texture
        c1 hwf hlu hchk
      refine ⟨c1, ?_, hspec.1, hspec.2.1, by rw [hspec.2.2.1],
        hspec.2.2.2.1, hspec.2.2.2.2.1,
        fun q _ hq => hspec.2.2.2.2.2 q hq⟩
      simp only [draw_bind_texture, hlu, hchk]
    | none =>
      obtain ⟨c', heq, hrest⟩ := draw_bind_alloc_spec ext c name loc cached
        sampler texture hwf hlu hbudget
      refine ⟨c', ?_, hrest⟩
      simp only [draw_bind_texture, hlu, hchk]
      exact heq

theorem draw_bind_list_spec (ext : Extensions) :
    ∀ (attrs : List (String × SamplerState × ℕ)) (c : BindTexturesCtx),
      BindWf c →
      (∀ a ∈ attrs, (c.shader.sampler_attributes.lookup a.1).isSome = true) →
      (attrs.map (fun a => a.1)).Nodup →
      usedCount c.used_units c.state.texture_unit_limit + attrs.length
        ≤ c.state.texture_unit_limit →
      ∃ c', draw_bind_texture_list ext c attrs = some c'
        ∧ BindWf c'
        ∧ c'.state.texture_unit_limit = c.state.texture_unit_limit
        ∧ (∀ a ∈ attrs, BindP c' a)
        ∧ (∀ q : String × SamplerState × ℕ,
            q.1 ∉ attrs.map (fun a => a.1) → BindP c q → BindP c' q) := by
  intro attrs
  induction attrs with
  | nil =>
    intro c hwf _ _ _
    exact ⟨c, rfl, hwf, rfl, by simp, fun q _ h => h⟩
  | cons a rest ih =>
    intro c hwf hnames hnd hbud
    obtain ⟨aname, asampler, atex⟩ := a
    simp only [List.length_cons] at hbud
    have hbudget : usedCount c.used_units c.state.texture_unit_limit
        < c.state.texture_unit_limit := by omega
    obtain ⟨c1, heq, hwf1, hlim1, hmap1, hused1, hbp1, hpres1⟩ :=
      draw_bind_texture_step ext c aname asampler atex hwf hbudget
        (hnames (aname, asampler, atex) (by simp))
    simp only [List.map_cons] at hnd
    have hndc := List.nodup_cons.mp hnd
    have hnames1 : ∀ b ∈ rest,
        (c1.shader.sampler_attributes.lookup b.1).isSome = true := by
      intro b hb
      have hmem := (lookup_isSome_iff b.1 c.shader.sampler_attributes).mp
        (hnames b (by simp [hb]))
      have hmap1' : c1.shader.sampler_attributes.map Prod.fst
          = c.shader.sampler_attributes.map Prod.fst := hmap1
      refine (lookup_isSome_iff b.1 c1.shader.sampler_attributes).mpr ?_
      rw [hmap1']
      exact hmem
    have hbud1 : usedCount c1.used_units c1.state.texture_unit_limit
        + rest.length ≤ c1.state.texture_unit_limit := by
      rw [hlim1]
      omega
    obtain ⟨c', heq', hwf', hlim', hall', hpres'⟩ := ih c1 hwf1 hnames1 hndc.2 hbud1
    refine ⟨c', ?_, hwf', by rw [hlim', hlim1], ?_, ?_⟩
    · simp only [draw_bind_texture_list, heq]
      exact heq'
    · intro b hb
      rcases List.mem_cons.mp hb with hba | hbr
      · subst hba
        exact hpres' (aname, asampler, atex) hndc.1 hbp1
      · exact hall' b hbr
    · intro q hq hbp
      have hq1 : q.1 ≠ aname := fun hx => hq (by simp [hx])
      have hq2 : q.1 ∉ rest.map (fun a => a.1) := fun hx => hq (by simp [hx])
      exact hpres' q hq2 (hpres1 q hq1 hbp)

/-- C2 (amended): the first half of the claim is refuted by
`c2_texture_binding_counterexample` — a draw call referencing at most N
distinct textures can still exhaust the N texture units and panic, because
the same texture bound under two different sampler states legitimately
claims two units when sampler objects are supported.  The correct bound is
the number of sampler attributes: for any draw call whose sampler
attributes have distinct names, all declared by the shader, and number at
most the texture unit limit, `bind_textures` never panics, and afterwards
every attribute's texture is bound to some unit below the limit, that unit
is claimed by the draw call, and the shader's cached unit and sampler
uniform for the attribute's name both hold that unit's index (`BindP`).
The hypotheses on the shader state are its well-formedness invariants:
cached units below the limit, uniform store consistent with the cache, and
distinct attribute names and uniform locations. -/
theorem c2_texture_unit_allocation (ext : Extensions) (state : GlesState)
    (shader : ShaderState) (textures : List (String × SamplerState × ℕ))
    (hlen : state.texture_units.length = MAX_TEXTURES)
    (hlim : state.texture_unit_limit ≤ MAX_TEXTURES)
    (hcached : ∀ p ∈ shader.sampler_attributes,
      p.2.2 < state.texture_unit_limit)
    (huni : ∀ p ∈ shader.sampler_attributes,
      shader.sampler_uniforms.lookup p.2.1 = some (Int.ofNat p.2.2))
    (hnames : (shader.sampler_attributes.map (fun p => p.1)).Nodup)
    (hlocs : (shader.sampler_attributes.map (fun p => p.2.1)).Nodup)
    (hdecl : ∀ a ∈ textures,
      (shader.sampler_attributes.lookup a.1).isSome = true)
    (hnd : (textures.map (fun a => a.1)).Nodup)
    (hcount : textures.length ≤ state.texture_unit_limit) :
    ∃ c', draw_bind_textures ext state shader textures = some c'
      ∧ c'.state.texture_unit_limit = state.texture_unit_limit
      ∧ ∀ a ∈ textures, BindP c' a := by
  have hwf0 : BindWf ⟨state, List.replicate MAX_TEXTURES false, shader,
      false, []⟩ :=
    ⟨hlen, hlim, List.length_replicate MAX_TEXTURES false, hcached, huni,
      hnames, hlocs⟩
  have hbud0 : usedCount (List.replicate MAX_TEXTURES false)
      state.texture_unit_limit + textures.length ≤ state.texture_unit_limit := by
    rw [usedCount_replicate_false]
    omega
  obtain ⟨c', heq, _, hlim', hall, _⟩ :=
    draw_bind_list_spec ext textures
      ⟨state, List.replicate MAX_TEXTURES false, shader, false, []⟩
      hwf0 hdecl hnd hbud0
  exact ⟨c', heq, hlim', hall⟩

theorem c2_texture_unit_allocation_witness :
    ∃ c', draw_bind_textures ⟨false, true, false⟩ (GlesState.initial 2)
        ⟨[("n1", 10, 0), ("n2", 11, 0)], [(10, 0), (11, 0)]⟩
        [("n1", SamplerState.initial, 1), ("n2", SamplerState.initial, 2)]
        = some c'
      ∧ c'.state.texture_unit_limit = (GlesState.initial 2).texture_unit_limit
      ∧ ∀ a ∈ [("n1", SamplerState.initial, 1),
          ("n2", SamplerState.initial, 2)], BindP c' a :=
  c2_texture_unit_allocation ⟨false, true, false⟩ (GlesState.initial 2)
    ⟨[("n1", 10, 0), ("n2", 11, 0)], [(10, 0), (11, 0)]⟩
    [("n1", SamplerState.initial, 1), ("n2", SamplerState.initial, 2)]
    (by decide) (by decide) (by decide) (by decide) (by decide) (by decide)
    (by decide) (by decide) (by decide)

/-! ## Claim C10: unknown attribute names are skipped -/

/-- `UniformAttribute` from `uniforms.rs`: a field of the client's uniform
struct (name, byte offset and byte size). -/
structure UniformAttribute where
  name : String
  offset : ℕ
  size : ℕ
deriving DecidableEq, Repr

/-- `UniformKind` from `shader.rs`: the GL type a shader uniform location
expects. -/
inductive UniformKind
  | Int
  | IntVec2
  | IntVec3
  | IntVec4
  | Float
  | FloatVec2
  | FloatVec3
  | FloatVec4
  | Mat2
  | Mat3
  | Mat4
deriving DecidableEq, Repr

/-- One iteration of the `bind_uniforms` loop from `frame_buffer.rs` for one
`UniformAttribute`: skip (`continue`) when the shader does not declare the
name; skip when the cache has the same format (`same_type`, the `ptr::eq`
of the `'static` format, pointers modelled as tags) and the same bytes in
the attribute's range; otherwise assert `*size <= attribute.size` (`none` =
panic) and issue one uniform upload call (the `UniformKind` match arms all
upload `new` at `location`).  Bytes are modelled as `List ℕ`, the slice
`uniforms[offset..offset+size]` as drop/take. -/
def bind_uniform_attribute
    (uniform_attributes : List (String × ℕ × UniformKind × ℕ))
    (cache : List ℕ) (same_type : Bool) (uniforms : List ℕ)
    (attr : UniformAttribute) : Option (List GlCall) :=
  match uniform_attributes.lookup attr.name with
  | none => some []  -- Uniform not defined in our shader, skipping binding
  | some (location, _kind, size) =>
    let new := (uniforms.drop attr.offset).take attr.size
    if same_type ∧ (cache.drop attr.offset).take attr.size = new then
      some []
    else if size ≤ attr.size then
      some [GlCall.uniformData location new]
    else
      none  -- assert: Shader expects larger value than provided by uniform

/-- The loop of `bind_uniforms` over the format's attributes. -/
def bind_uniforms_loop
    (uniform_attributes : List (String × ℕ × UniformKind × ℕ))
    (cache : List ℕ) (same_type : Bool) (uniforms : List ℕ) :
    List UniformAttribute → Option (List GlCall)
  | [] => some []
  | a :: rest =>
    match bind_uniform_attribute uniform_attributes cache same_type uniforms
        a with
    | none => none
    | some cs =>
      match bind_uniforms_loop uniform_attributes cache same_type uniforms
          rest with
      | none => none
      | some cs' => some (cs ++ cs')

/-- `bind_uniforms` from `frame_buffer.rs`: `same_type` is the pointer
equality of the cached and supplied `'static` format (pointers as numeric
tags); at the end the cache is overwritten with the new format and bytes.
Returns the issued calls and the new cache. -/
def bind_uniforms (uniform_attributes : List (String × ℕ × UniformKind × ℕ))
    (cache_tag : ℕ) (cache : List ℕ) (format_tag : ℕ)
    (format : List UniformAttribute) (uniforms : List ℕ) :
    Option (List GlCall × ℕ × List ℕ) :=
  let same_type := cache_tag == format_tag
  match bind_uniforms_loop uniform_attributes cache same_type uniforms
      format with
  | none => none
  | some cs => some (cs, format_tag, uniforms)

theorem bind_uniforms_loop_skips
    (uniform_attributes : List (String × ℕ × UniformKind × ℕ))
    (cache : List ℕ) (same_type : Bool) (uniforms : List ℕ) :
    ∀ format : List UniformAttribute,
      (∀ a ∈ format, uniform_attributes.lookup a.name = none) →
      bind_uniforms_loop uniform_attributes cache same_type uniforms format
        = some [] := by
  intro format
  induction format with
  | nil => intro _; rfl
  | cons a rest ih =>
    intro h
    have ha : uniform_attributes.lookup a.name = none := h a (by simp)
    have hr := ih (fun b hb => h b (by simp [hb]))
    simp only [bind_uniforms_loop, bind_uniform_attribute, ha, hr,
      List.nil_append]

theorem draw_bind_texture_list_skips (ext : Extensions) :
    ∀ (textures : List (String × SamplerState × ℕ)) (c : BindTexturesCtx),
      (∀ t ∈ textures, c.shader.sampler_attributes.lookup t.1 = none) →
      draw_bind_texture_list ext c textures = some c := by
  intro textures
  induction textures with
  | nil => intro c _; rfl
  | cons t rest ih =>
    intro c h
    obtain ⟨tname, tsampler, ttex⟩ := t
    have ht : c.shader.sampler_attributes.lookup tname = none :=
      h (tname, tsampler, ttex) (by simp)
    have hr := ih c (fun b hb => h b (by simp [hb]))
    simp only [draw_bind_texture_list, draw_bind_texture, ht]
    exact hr

/-- C10: a draw call never fails on unknown attribute names.  A sampler
attribute whose name the shader does not declare is skipped by
`bind_texture` with the binding context returned exactly unchanged (no
texture-unit allocation, no uniform write, no driver call, no panic), so a
whole draw call whose sampler attributes are all undeclared leaves the
context untouched; a uniform attribute whose name the shader does not
declare is skipped by `bind_uniforms` with no driver call and no panic, so
a format whose names are all undeclared uploads nothing (the uniforms
cache is still overwritten at the end, as in the source). -/
theorem c10_unknown_names_skipped (ext : Extensions) (c : BindTexturesCtx)
    (name : String) (sampler : SamplerState) (texture : ℕ)
    (textures : List (String × SamplerState × ℕ))
    (uniform_attributes : List (String × ℕ × UniformKind × ℕ))
    (cache_tag : ℕ) (cache : List ℕ) (format_tag : ℕ)
    (format : List UniformAttribute) (uniforms : List ℕ)
    (a : UniformAttribute)
    (hs : c.shader.sampler_attributes.lookup name = none)
    (hst : ∀ t ∈ textures, c.shader.sampler_attributes.lookup t.1 = none)
    (hu : uniform_attributes.lookup a.name = none)
    (huf : ∀ b ∈ format, uniform_attributes.lookup b.name = none) :
    draw_bind_texture ext c name sampler texture = some c
    ∧ draw_bind_texture_list ext c textures = some c
    ∧ bind_uniform_attribute uniform_attributes cache (cache_tag == format_tag)
        uniforms a = some []
    ∧ bind_uniforms uniform_attributes cache_tag cache format_tag format
        uniforms = some ([], format_tag, uniforms) := by
  refine ⟨?_, draw_bind_texture_list_skips ext textures c hst, ?_, ?_⟩
  · simp only [draw_bind_texture, hs]
  · simp only [bind_uniform_attribute, hu]
  · simp only [bind_uniforms,
      bind_uniforms_loop_skips uniform_attributes cache _ uniforms format huf]

theorem c10_unknown_names_skipped_witness :
    draw_bind_texture ⟨false, true, false⟩
        ⟨GlesState.initial 2, List.replicate 32 false, ⟨[("s", 7, 0)], [(7, 0)]⟩,
          false, []⟩ "tex0" SamplerState.initial 1
      = some ⟨GlesState.initial 2, List.replicate 32 false,
          ⟨[("s", 7, 0)], [(7, 0)]⟩, false, []⟩
    ∧ draw_bind_texture_list ⟨false, true, false⟩
        ⟨GlesState.initial 2, List.replicate 32 false, ⟨[("s", 7, 0)], [(7, 0)]⟩,
          false, []⟩ [("tex0", SamplerState.initial, 1)]
      = some ⟨GlesState.initial 2, List.replicate 32 false,
          ⟨[("s", 7, 0)], [(7, 0)]⟩, false, []⟩
    ∧ bind_uniform_attribute [("u", 3, UniformKind.Float, 4)] [] (true == true)
        [9, 9, 9, 9] ⟨"v", 0, 4⟩ = some []
    ∧ bind_uniforms [("u", 3, UniformKind.Float, 4)] 1 [] 1 [⟨"v", 0, 4⟩]
        [9, 9, 9, 9] = some ([], 1, [9, 9, 9, 9]) :=
  c10_unknown_names_skipped ⟨false, true, false⟩
    ⟨GlesState.initial 2, List.replicate 32 false, ⟨[("s", 7, 0)], [(7, 0)]⟩,
      false, []⟩ "tex0" SamplerState.initial 1
    [("tex0", SamplerState.initial, 1)] [("u", 3, UniformKind.Float, 4)]
    1 [] 1 [⟨"v", 0, 4⟩] [9, 9, 9, 9] ⟨"v", 0, 4⟩
    (by decide) (by decide) (by decide) (by decide)
